import Mathlib

/-!
Shallow embedding of the staff-shift-tracker shift lifecycle and duration
accounting (src/server/models/shift.js and
src/server/controllers/shiftController.js).

Modelling conventions:
* `Date` values are milliseconds since the Unix epoch, embedded as `Int`.
  Date component arithmetic (`setHours`, `getDay`, `getFullYear`, ...) is
  modelled at UTC.
* JS `Number` arithmetic on durations is embedded as exact rationals `ℚ`
  (the millisecond-to-minute divisions produce fractional values that the
  source keeps unfloored).
* Mongoose documents become Lean structures; the database is a `List Shift`
  and `findOne`/`save` become first-match search and first-match replacement.
* Controller handlers become pure functions returning
  `Except ApiError (updated database × payload)`; an error response leaves
  the database untouched.
-/

namespace StaffShift

/-- Location subdocument (models/shift.js `LocationSchema`). -/
structure Location where
  latitude : ℚ
  longitude : ℚ
  address : String
deriving DecidableEq, Repr

/-- `{timestamp, location}` pair (models/shift.js `TimestampLocationSchema`). -/
structure TimestampLocation where
  timestamp : Int
  location : Location
deriving DecidableEq, Repr

/-- Break type enum `['lunch', 'short']`. -/
inductive BreakType where
  | lunch
  | short
deriving DecidableEq, Repr

/-- Break subdocument (models/shift.js `BreakSchema`); `duration` is in
minutes and defaults to 0 until the break is closed. -/
structure Break where
  type : BreakType
  startTime : TimestampLocation
  endTime : Option TimestampLocation
  duration : ℚ
deriving DecidableEq, Repr

/-- Shift status enum `['active', 'break', 'completed']`; `break` is a Lean
keyword, so the on-break state is spelled `brk`. -/
inductive ShiftStatus where
  | active
  | brk
  | completed
deriving DecidableEq, Repr

/-- Shift document (models/shift.js `ShiftSchema`).  `id` stands for the
mongo `_id`; durations are in minutes. -/
structure Shift where
  id : Nat
  userId : Nat
  date : Int
  shiftStatus : ShiftStatus
  startTime : TimestampLocation
  breaks : List Break
  endTime : Option TimestampLocation
  totalWorkDuration : ℚ
  totalBreakDuration : ℚ
  notes : String
deriving DecidableEq, Repr

/-- models/shift.js `calculateWorkDuration`: 0 when `endTime` is absent,
otherwise elapsed minutes minus the stored `totalBreakDuration`. -/
def Shift.calculateWorkDuration (s : Shift) : ℚ :=
  match s.endTime with
  | none => 0
  | some e => ((e.timestamp - s.startTime.timestamp : Int) : ℚ) / (1000 * 60) - s.totalBreakDuration

/-- models/shift.js `startBreak`: push a new open break and move to the
`break` status; returns the new break alongside the updated shift. -/
def Shift.startBreak (s : Shift) (breakType : BreakType) (now : Int) (loc : Location) :
    Shift × Break :=
  let newBreak : Break :=
    { type := breakType
      startTime := { timestamp := now, location := loc }
      endTime := none
      duration := 0 }
  ({ s with breaks := s.breaks ++ [newBreak], shiftStatus := .brk }, newBreak)

/-- models/shift.js `endBreak`: `null` when there are no breaks or the last
break is already closed; otherwise close the last break, add its duration to
`totalBreakDuration` and return to `active`. -/
def Shift.endBreak (s : Shift) (now : Int) (loc : Location) : Option (Shift × Break) :=
  match s.breaks.getLast? with
  | none => none
  | some currentBreak =>
    if currentBreak.endTime.isSome then
      none
    else
      let dur : ℚ := ((now - currentBreak.startTime.timestamp : Int) : ℚ) / (1000 * 60)
      let updated : Break := { currentBreak with endTime := some ⟨now, loc⟩, duration := dur }
      some ({ s with
                breaks := s.breaks.dropLast ++ [updated]
                totalBreakDuration := s.totalBreakDuration + dur
                shiftStatus := .active },
            updated)

/-- models/shift.js `endShift`: first end any ongoing break, then stamp
`endTime`, freeze `totalWorkDuration` via `calculateWorkDuration` and move to
`completed`. -/
def Shift.endShift (s : Shift) (now : Int) (loc : Location) : Shift :=
  let s1 :=
    if s.shiftStatus = .brk then
      match s.endBreak now loc with
      | some p => p.1
      | none => s
    else s
  let s2 := { s1 with endTime := some ⟨now, loc⟩ }
  { s2 with totalWorkDuration := s2.calculateWorkDuration, shiftStatus := .completed }

/-- Sum of the stored `duration` field over the closed breaks of a list
(the quantity `totalBreakDuration` is supposed to track, spec §3). -/
def closedDurSum (bs : List Break) : ℚ :=
  ((bs.filter fun b => b.endTime.isSome).map fun b => b.duration).sum

/-- Spec §4.2 `computeBreakDuration`: elapsed minutes of a closed break,
recomputed from its timestamps (0 when still open; the spec leaves the open
case undefined). -/
def computeBreakDuration (b : Break) : ℚ :=
  match b.endTime with
  | none => 0
  | some e => ((e.timestamp - b.startTime.timestamp : Int) : ℚ) / (1000 * 60)

/-- Spec §4.2 `computeTotalBreakDuration`: sum of `computeBreakDuration` over
the closed breaks of a shift. -/
def computeTotalBreakDuration (s : Shift) : ℚ :=
  ((s.breaks.filter fun b => b.endTime.isSome).map computeBreakDuration).sum

/-- Spec §4.2 `computeWorkDuration`: elapsed shift minutes minus
`computeTotalBreakDuration` (0 when `endTime` is absent). -/
def computeWorkDuration (s : Shift) : ℚ :=
  match s.endTime with
  | none => 0
  | some e => ((e.timestamp - s.startTime.timestamp : Int) : ℚ) / (1000 * 60) - computeTotalBreakDuration s

/-- Modelled from the spec: the live-duration accountant
(`computeLiveDuration` / `getLiveDuration`, spec §4.2 and §6) has no
implementation anywhere under src/ (the repository holds only the backend;
no dashboard code computes live durations), so it is defined following the
spec's words: on break, work-so-far runs from the effective start (previous
break's end if any earlier breaks exist, else the shift start) to the open
break's start, and break-so-far from the open break's start to `now`; while
active, work-so-far runs from the effective start to `now` with zero
break-so-far; `none` for completed shifts or an on-break shift without
breaks. -/
def computeLiveDuration (s : Shift) (now : Int) : Option (ℚ × ℚ) :=
  match s.shiftStatus with
  | .completed => none
  | .brk =>
    match s.breaks.getLast? with
    | none => none
    | some lastBreak =>
      let effectiveStart : Int :=
        match s.breaks.dropLast.getLast? with
        | some prev =>
          match prev.endTime with
          | some e => e.timestamp
          | none => s.startTime.timestamp
        | none => s.startTime.timestamp
      some (((lastBreak.startTime.timestamp - effectiveStart : Int) : ℚ) / (1000 * 60),
            ((now - lastBreak.startTime.timestamp : Int) : ℚ) / (1000 * 60))
  | .active =>
    let effectiveStart : Int :=
      match s.breaks.getLast? with
      | some lastClosed =>
        match lastClosed.endTime with
        | some e => e.timestamp
        | none => s.startTime.timestamp
      | none => s.startTime.timestamp
    some (((now - effectiveStart : Int) : ℚ) / (1000 * 60), 0)

/-! ## Controller layer (src/server/controllers/shiftController.js)

The mongo collection is a `List Shift`; `findOne(query)` is `List.find?`
with the query as a boolean predicate, and `save` replaces the first
document matching the query that fetched it. -/

/-- Error responses of the shift controller handlers relevant to the
lifecycle operations (tagged by route and message). -/
inductive ApiError where
  /-- startShift 400 `'You already have an active shift'` (with the shift). -/
  | duplicateActiveShift (existing : Shift)
  /-- startBreak / endShift 404 `'Active shift not found'`. -/
  | activeShiftNotFound
  /-- endBreak 404 `'Shift on break not found'`. -/
  | shiftOnBreakNotFound
  /-- endBreak 400 `'No active break found'`. -/
  | noActiveBreakFound
deriving DecidableEq, Repr

/-- `shiftStatus: { $in: ['active', 'break'] }`. -/
def isActiveStatus : ShiftStatus → Bool
  | .active => true
  | .brk => true
  | .completed => false

/-- Query `{ userId, shiftStatus: { $in: ['active', 'break'] } }`. -/
def isActiveFor (uid : Nat) (s : Shift) : Bool :=
  decide (s.userId = uid) && isActiveStatus s.shiftStatus

/-- Replace the first list element satisfying `p` (how `save` writes a
fetched-and-mutated document back). -/
def updateFirst (p : Shift → Bool) (f : Shift → Shift) : List Shift → List Shift
  | [] => []
  | s :: rest => if p s then f s :: rest else s :: updateFirst p f rest

/-- Controller `startShift`: refuse while the user has an active/on-break
shift, otherwise create a fresh `active` shift dated and started now. -/
def startShiftCtrl (db : List Shift) (uid : Nat) (newId : Nat) (now : Int) (loc : Location) :
    Except ApiError (List Shift × Shift) :=
  match db.find? (isActiveFor uid) with
  | some activeShift => .error (.duplicateActiveShift activeShift)
  | none =>
    let newShift : Shift :=
      { id := newId
        userId := uid
        date := now
        shiftStatus := .active
        startTime := { timestamp := now, location := loc }
        breaks := []
        endTime := none
        totalWorkDuration := 0
        totalBreakDuration := 0
        notes := "" }
    .ok (db ++ [newShift], newShift)

/-- Query `{ _id: id, userId, shiftStatus: 'active' }`. -/
def activeShiftQuery (uid sid : Nat) (s : Shift) : Bool :=
  decide (s.id = sid) && decide (s.userId = uid) && decide (s.shiftStatus = .active)

/-- Query `{ _id: id, userId, shiftStatus: 'break' }`. -/
def onBreakShiftQuery (uid sid : Nat) (s : Shift) : Bool :=
  decide (s.id = sid) && decide (s.userId = uid) && decide (s.shiftStatus = .brk)

/-- Query `{ _id: id, userId, shiftStatus: { $in: ['active', 'break'] } }`. -/
def activeOrBreakShiftQuery (uid sid : Nat) (s : Shift) : Bool :=
  decide (s.id = sid) && isActiveFor uid s

/-- Controller `startBreak` (the break type is embedded as `BreakType`, so
the `'Invalid break type'` validation always passes). -/
def startBreakCtrl (db : List Shift) (uid sid : Nat) (breakType : BreakType) (now : Int)
    (loc : Location) : Except ApiError (List Shift × Break) :=
  match db.find? (activeShiftQuery uid sid) with
  | none => .error .activeShiftNotFound
  | some shift =>
    let r := shift.startBreak breakType now loc
    .ok (updateFirst (activeShiftQuery uid sid) (fun _ => r.1) db, r.2)

/-- Recommended maximum break minutes: `updatedBreak.type === 'lunch' ? 60 : 15`. -/
def maxBreakDuration : BreakType → ℚ
  | .lunch => 60
  | .short => 15

/-- JS `Math.round` (half toward positive infinity) on an exact rational. -/
def jsRound (q : ℚ) : Int := ⌊q + 1 / 2⌋

/-- Controller `endBreak`: returns the updated database, the closed break,
and the break-exceeded notification payload (`type`, exceeded-by minutes)
when the closed break ran over its recommended maximum. -/
def endBreakCtrl (db : List Shift) (uid sid : Nat) (now : Int) (loc : Location) :
    Except ApiError (List Shift × Break × Option (BreakType × Int)) :=
  match db.find? (onBreakShiftQuery uid sid) with
  | none => .error .shiftOnBreakNotFound
  | some shift =>
    match shift.endBreak now loc with
    | none => .error .noActiveBreakFound
    | some r =>
      let db' := updateFirst (onBreakShiftQuery uid sid) (fun _ => r.1) db
      let updatedBreak := r.2
      let notif : Option (BreakType × Int) :=
        if maxBreakDuration updatedBreak.type < updatedBreak.duration then
          some (updatedBreak.type, jsRound (updatedBreak.duration - maxBreakDuration updatedBreak.type))
        else
          none
      .ok (db', updatedBreak, notif)

/-- `if (notes) shift.notes = notes`: store the notes when they are a
truthy (present, non-empty) string. -/
def applyNotes (s : Shift) (notes : Option String) : Shift :=
  match notes with
  | some n => if n = "" then s else { s with notes := n }
  | none => s

/-- Controller `endShift`: end the found active/on-break shift, then store
the notes when they are a non-empty (truthy) string. -/
def endShiftCtrl (db : List Shift) (uid sid : Nat) (now : Int) (loc : Location)
    (notes : Option String) : Except ApiError (List Shift × Shift) :=
  match db.find? (activeOrBreakShiftQuery uid sid) with
  | none => .error .activeShiftNotFound
  | some shift =>
    let s'' := applyNotes (shift.endShift now loc) notes
    .ok (updateFirst (activeOrBreakShiftQuery uid sid) (fun _ => s'') db, s'')

/-- One guarded lifecycle request (the four state-machine routes). -/
inductive Action where
  | start (uid newId : Nat) (now : Int) (loc : Location)
  | sBreak (uid sid : Nat) (breakType : BreakType) (now : Int) (loc : Location)
  | eBreak (uid sid : Nat) (now : Int) (loc : Location)
  | eShift (uid sid : Nat) (now : Int) (loc : Location) (notes : Option String)

/-- Database after handling one request (an error response leaves the
database unchanged). -/
def step (db : List Shift) : Action → List Shift
  | .start uid newId now loc =>
    match startShiftCtrl db uid newId now loc with
    | .ok r => r.1
    | .error _ => db
  | .sBreak uid sid breakType now loc =>
    match startBreakCtrl db uid sid breakType now loc with
    | .ok r => r.1
    | .error _ => db
  | .eBreak uid sid now loc =>
    match endBreakCtrl db uid sid now loc with
    | .ok r => r.1
    | .error _ => db
  | .eShift uid sid now loc notes =>
    match endShiftCtrl db uid sid now loc notes with
    | .ok r => r.1
    | .error _ => db

/-- Database after a sequence of requests. -/
def run (db : List Shift) (acts : List Action) : List Shift :=
  acts.foldl step db

/-- Number of the user's shifts currently in `active` or `break` status. -/
def countActive (db : List Shift) (uid : Nat) : Nat :=
  (db.filter (isActiveFor uid)).length

/-! ## Administrator override (controller `updateShift`, admin branch) -/

/-- Fields of an `updateShift` request body (absent = `undefined`). -/
structure ShiftUpdate where
  notes : Option String
  startTime : Option Int
  endTime : Option Int
  breaks : Option (List Break)

/-- Controller `updateShift` applied to the fetched shift (the permission
check has passed; `isAdmin` gates the time-field branch).  The source ends
the admin branch with `shift.duration = (endTime − startTime) in hours`, but
`duration` is not a path of the shift schema, so mongoose drops it on save
and the stored document is returned without it; `totalWorkDuration` and
`totalBreakDuration` are not touched.  The source's
`if (!shift.endTime) shift.shiftStatus = 'completed'` test runs right after
`shift.endTime` was assigned, hence is modelled as the (unreachable) check
that the just-set field is absent. -/
def updateShiftCtrl (shift : Shift) (u : ShiftUpdate) (isAdmin : Bool) : Shift :=
  let s1 :=
    match u.notes with
    | some n => { shift with notes := n }
    | none => shift
  if isAdmin then
    let s2 :=
      match u.startTime with
      | some t => { s1 with startTime := { s1.startTime with timestamp := t } }
      | none => s1
    let s3 :=
      match u.endTime with
      | some t =>
        let withEnd : Shift :=
          { s2 with
              endTime := some { timestamp := t,
                                location :=
                                  match s2.endTime with
                                  | some e => e.location
                                  | none => s2.startTime.location } }
        if withEnd.endTime.isNone then { withEnd with shiftStatus := .completed } else withEnd
      | none => s2
    match u.breaks with
    | some bs => { s3 with breaks := bs }
    | none => s3
  else s1

/-! ## Calendar helpers (UTC)

`setHours(0,0,0,0)`, `getDay`, `getFullYear`/`getMonth` and the
day-of-month arithmetic of the statistics handlers, modelled at UTC on
millisecond timestamps.  `civilFromDays`/`daysFromCivil` are the standard
Gregorian day-number conversions. -/

/-- Milliseconds per day. -/
def msPerDay : Int := 86400000

/-- Day number (days since the epoch) containing a millisecond timestamp. -/
def dayOf (t : Int) : Int := t.fdiv msPerDay

/-- `setHours(0, 0, 0, 0)`: midnight of the timestamp's day. -/
def dayStartMs (t : Int) : Int := msPerDay * dayOf t

/-- JS `Date.getDay` (0 = Sunday) of a day number; epoch day 0 was a
Thursday (`%` on `Int` is the Euclidean remainder, so the result is in
`0..6`). -/
def getDayOfWeek (d : Int) : Nat := ((d + 4) % 7).toNat

/-- Gregorian day number of the given civil date (`m`, `d` are 1-based). -/
def daysFromCivil (y : Int) (m d : Nat) : Int :=
  let y' : Int := if m ≤ 2 then y - 1 else y
  let era : Int := y'.fdiv 400
  let yoe : Nat := (y' - era * 400).toNat
  let mp : Nat := (m + 9) % 12
  let doy : Nat := (153 * mp + 2) / 5 + d - 1
  let doe : Nat := yoe * 365 + yoe / 4 - yoe / 100 + doy
  era * 146097 + (doe : Int) - 719468

/-- Civil date `(year, month, day)` of a Gregorian day number. -/
def civilFromDays (z0 : Int) : Int × Nat × Nat :=
  let z : Int := z0 + 719468
  let era : Int := z.fdiv 146097
  let doe : Nat := (z - era * 146097).toNat
  let yoe : Nat := (doe - doe / 1460 + doe / 36524 - doe / 146096) / 365
  let doy : Nat := doe - (365 * yoe + yoe / 4 - yoe / 100)
  let mp : Nat := (5 * doy + 2) / 153
  let d : Nat := doy - (153 * mp + 2) / 5 + 1
  let m : Nat := if mp < 10 then mp + 3 else mp - 9
  (era * 400 + (yoe : Int) + (if m ≤ 2 then 1 else 0), m, d)

/-- shiftController.js `getWeekNumber`: midnight of the date, shifted to the
nearest Thursday (`getDay() || 7`), then the 1-based count of 7-day blocks
since January 1 of that Thursday's year, rounded up. -/
def getWeekNumber (dateMs : Int) : Int :=
  let d0 := dayOf dateMs
  let g := getDayOfWeek d0
  let d := d0 + 4 - (if g = 0 then 7 else (g : Int))
  let yearStart := daysFromCivil (civilFromDays d).1 1 1
  (d - yearStart + 1 + 6).fdiv 7

/-- JS `parseFloat(x.toFixed(2))`: round to two decimal places (half toward
positive infinity; the source's float formatting is approximated by exact
rational rounding). -/
def round2 (q : ℚ) : ℚ := (jsRound (q * 100) : ℚ) / 100

/-! ## Statistics handlers (shiftController.js `getDailyStats`,
`getWeeklyStats`, `getMonthlyStats`) -/

/-- Query `{ userId, date: { $gte: lo, $lte: hi }, shiftStatus: 'completed' }`. -/
def completedInWindow (uid : Nat) (lo hi : Int) (s : Shift) : Bool :=
  decide (s.userId = uid) && decide (lo ≤ s.date) && decide (s.date ≤ hi) &&
    decide (s.shiftStatus = .completed)

/-- Insert a shift into a date-ascending list (for `.sort({ date: 1 })`). -/
def insertByDate (s : Shift) : List Shift → List Shift
  | [] => [s]
  | t :: ts => if s.date ≤ t.date then s :: t :: ts else t :: insertByDate s ts

/-- `.sort({ date: 1 })`: sort the fetched shifts by date ascending. -/
def sortByDate : List Shift → List Shift
  | [] => []
  | s :: ss => insertByDate s (sortByDate ss)

/-- Raw elapsed shift hours `(endTime − startTime) / (1000*60*60)` when
`endTime` is present, as accumulated by all three statistics handlers
(note: the stored break time is *not* subtracted). -/
def rawShiftHours (s : Shift) : ℚ :=
  match s.endTime with
  | none => 0
  | some e => ((e.timestamp - s.startTime.timestamp : Int) : ℚ) / (1000 * 60 * 60)

/-- Break-minute accumulation over one shift's breaks, as written in the
statistics handlers: each break with an `endTime` contributes
`(endTime − startTime) / (1000*60)`. -/
def statsBreakFold (acc : ℚ) (bk : Break) : ℚ :=
  match bk.endTime with
  | none => acc
  | some e => acc + ((e.timestamp - bk.startTime.timestamp : Int) : ℚ) / (1000 * 60)

/-- `getDailyStats` per-shift accumulator `(totalHours, totalBreakMinutes)`. -/
def dailyAccum (acc : ℚ × ℚ) (s : Shift) : ℚ × ℚ :=
  let h :=
    match s.endTime with
    | none => acc.1
    | some e => acc.1 + ((e.timestamp - s.startTime.timestamp : Int) : ℚ) / (1000 * 60 * 60)
  (h, s.breaks.foldl statsBreakFold acc.2)

/-- Response of `getDailyStats`. -/
structure DailyStatsResp where
  date : Int
  totalShifts : Nat
  totalHours : ℚ
  totalBreakMinutes : Int
  shifts : List Shift
deriving DecidableEq, Repr

/-- Controller `getDailyStats` at reference time `refDate`: completed shifts
dated within the reference day, with raw elapsed hours and closed-break
minutes summed and rounded for the response. -/
def getDailyStats (db : List Shift) (uid : Nat) (refDate : Int) : DailyStatsResp :=
  let startOfDay := dayStartMs refDate
  let endOfDay := startOfDay + msPerDay - 1
  let shifts := db.filter (completedInWindow uid startOfDay endOfDay)
  let acc := shifts.foldl dailyAccum (0, 0)
  { date := startOfDay
    totalShifts := shifts.length
    totalHours := round2 acc.1
    totalBreakMinutes := jsRound acc.2
    shifts := shifts }

/-- One `dailyStats` bucket of the weekly response. -/
structure WeekDayStat where
  date : Int
  dayOfWeek : String
  totalHours : ℚ
  totalBreakMinutes : ℚ
  shiftsCount : Nat
deriving DecidableEq, Repr

/-- Apply `f` at index `i` when it exists (in-place array element update). -/
def modifyIdx (l : List WeekDayStat) (i : Nat) (f : WeekDayStat → WeekDayStat) :
    List WeekDayStat :=
  match l.get? i with
  | some x => l.set i (f x)
  | none => l

/-- The seven initial day buckets of a week starting at day number
`weekStartDay`. -/
def initWeekDays (weekStartDay : Int) : List WeekDayStat :=
  (List.range 7).map fun i =>
    { date := (weekStartDay + Int.ofNat i) * msPerDay
      dayOfWeek := (["Sunday", "Monday", "Tuesday", "Wednesday", "Thursday", "Friday",
                     "Saturday"].getD i "")
      totalHours := 0
      totalBreakMinutes := 0
      shiftsCount := 0 }

/-- Break-minute accumulation of the weekly handler over one shift's breaks:
each closed break adds to the weekly total and to the day bucket at
`dayIndex`. -/
def weeklyBreakFold (dayIndex : Nat) (a : List WeekDayStat × ℚ) (bk : Break) :
    List WeekDayStat × ℚ :=
  match bk.endTime with
  | none => a
  | some e =>
    let durB := ((e.timestamp - bk.startTime.timestamp : Int) : ℚ) / (1000 * 60)
    (modifyIdx a.1 dayIndex
      (fun d => { d with totalBreakMinutes := d.totalBreakMinutes + durB }),
     a.2 + durB)

/-- `getWeeklyStats` per-shift accumulator
`(dailyStats, totalWeeklyHours, totalWeeklyBreakMinutes)`; the bucket index
is the shift date's day of week. -/
def weeklyAccum (acc : List WeekDayStat × ℚ × ℚ) (s : Shift) :
    List WeekDayStat × ℚ × ℚ :=
  let dayIndex := getDayOfWeek (dayOf s.date)
  let (days, th) :=
    match s.endTime with
    | none => (acc.1, acc.2.1)
    | some e =>
      let dur := ((e.timestamp - s.startTime.timestamp : Int) : ℚ) / (1000 * 60 * 60)
      (modifyIdx acc.1 dayIndex
        (fun d => { d with totalHours := d.totalHours + dur, shiftsCount := d.shiftsCount + 1 }),
       acc.2.1 + dur)
  let r := s.breaks.foldl (weeklyBreakFold dayIndex) (days, acc.2.2)
  (r.1, th, r.2)

/-- Response of `getWeeklyStats`. -/
structure WeeklyStatsResp where
  weekStart : Int
  weekEnd : Int
  totalShifts : Nat
  totalHours : ℚ
  totalBreakMinutes : Int
  dailyStats : List WeekDayStat
deriving DecidableEq, Repr

/-- Controller `getWeeklyStats` at reference time `refDate`: the window is
the Sunday-start week containing the reference date
(`startDate.setDate(getDate() - getDay())` then midnight through the
following Saturday 23:59:59.999). -/
def getWeeklyStats (db : List Shift) (uid : Nat) (refDate : Int) : WeeklyStatsResp :=
  let weekStartDay := dayOf refDate - (getDayOfWeek (dayOf refDate) : Int)
  let startDate := weekStartDay * msPerDay
  let endDate := (weekStartDay + 7) * msPerDay - 1
  let shifts := sortByDate (db.filter (completedInWindow uid startDate endDate))
  let acc := shifts.foldl weeklyAccum (initWeekDays weekStartDay, 0, 0)
  { weekStart := startDate
    weekEnd := endDate
    totalShifts := shifts.length
    totalHours := round2 acc.2.1
    totalBreakMinutes := jsRound acc.2.2
    dailyStats := acc.1.map fun d =>
      { d with totalHours := round2 d.totalHours,
               totalBreakMinutes := (jsRound d.totalBreakMinutes : ℚ) } }

/-- One `weeklyStats` accumulator entry of the monthly handler. -/
structure MonthWeekAcc where
  hours : ℚ
  breaks : ℚ
  shifts : Nat
deriving DecidableEq, Repr

/-- Lookup in the week-number-keyed accumulator object. -/
def lookupWeek (ws : List (Int × MonthWeekAcc)) (w : Int) : Option MonthWeekAcc :=
  match ws.find? (fun p => decide (p.1 = w)) with
  | none => none
  | some p => some p.2

/-- Update the entry at key `w` (the key is present). -/
def assocModify (w : Int) (f : MonthWeekAcc → MonthWeekAcc) :
    List (Int × MonthWeekAcc) → List (Int × MonthWeekAcc)
  | [] => []
  | p :: rest => if p.1 = w then (p.1, f p.2) :: rest else p :: assocModify w f rest

/-- Break-minute accumulation of the monthly handler over one shift's
breaks: each closed break adds to the month total, and to the shift's
week bucket when that bucket exists. -/
def monthlyBreakFold (w : Int) (acc : ℚ × List (Int × MonthWeekAcc)) (bk : Break) :
    ℚ × List (Int × MonthWeekAcc) :=
  match bk.endTime with
  | none => acc
  | some e =>
    let durB := ((e.timestamp - bk.startTime.timestamp : Int) : ℚ) / (1000 * 60)
    let ws :=
      match lookupWeek acc.2 w with
      | some _ => assocModify w (fun a => { a with breaks := a.breaks + durB }) acc.2
      | none => acc.2
    (acc.1 + durB, ws)

/-- `getMonthlyStats` per-shift accumulator
`(totalHours, totalBreakMinutes, weeklyStats)`: a shift with an `endTime`
adds its raw hours to the total and to its week's bucket (creating the
bucket on first use), then its closed breaks are accumulated. -/
def monthlyAccum (acc : ℚ × ℚ × List (Int × MonthWeekAcc)) (s : Shift) :
    ℚ × ℚ × List (Int × MonthWeekAcc) :=
  let (th, ws) :=
    match s.endTime with
    | none => (acc.1, acc.2.2)
    | some e =>
      let dur := ((e.timestamp - s.startTime.timestamp : Int) : ℚ) / (1000 * 60 * 60)
      let w := getWeekNumber s.date
      let ws0 :=
        match lookupWeek acc.2.2 w with
        | some _ => acc.2.2
        | none => acc.2.2 ++ [(w, { hours := 0, breaks := 0, shifts := 0 })]
      (acc.1 + dur,
       assocModify w (fun a => { a with hours := a.hours + dur, shifts := a.shifts + 1 }) ws0)
  let r := s.breaks.foldl (monthlyBreakFold (getWeekNumber s.date)) (acc.2.1, ws)
  (th, r.1, r.2)

/-- One formatted `weeklyStats` entry of the monthly response. -/
structure MonthWeekStat where
  weekNumber : Int
  totalHours : ℚ
  totalBreakMinutes : Int
  shiftsCount : Nat
deriving DecidableEq, Repr

/-- Response of `getMonthlyStats`. -/
structure MonthlyStatsResp where
  month : Nat
  year : Int
  totalShifts : Nat
  totalHours : ℚ
  totalBreakMinutes : Int
  weeklyStats : List MonthWeekStat
deriving DecidableEq, Repr

/-- Controller `getMonthlyStats` at reference time `refDate`: the window is
the reference date's calendar month; completed shifts are additionally
grouped by `getWeekNumber` of their date for the `weeklyStats` sub-totals. -/
def getMonthlyStats (db : List Shift) (uid : Nat) (refDate : Int) : MonthlyStatsResp :=
  let c := civilFromDays (dayOf refDate)
  let y := c.1
  let m := c.2.1
  let startOfMonth := msPerDay * daysFromCivil y m 1
  let endOfMonth :=
    msPerDay * (if m = 12 then daysFromCivil (y + 1) 1 1 else daysFromCivil y (m + 1) 1) - 1
  let shifts := sortByDate (db.filter (completedInWindow uid startOfMonth endOfMonth))
  let acc := shifts.foldl monthlyAccum (0, 0, [])
  { month := m
    year := y
    totalShifts := shifts.length
    totalHours := round2 acc.1
    totalBreakMinutes := jsRound acc.2.1
    weeklyStats := acc.2.2.map fun p =>
      { weekNumber := p.1
        totalHours := round2 p.2.hours
        totalBreakMinutes := jsRound p.2.breaks
        shiftsCount := p.2.shifts } }

/-! ## Statistics windows, spelled out -/

/-- Lower bound of the daily window: midnight of the reference day. -/
def dailyWindowLo (refDate : Int) : Int := dayStartMs refDate

/-- Upper bound of the daily window: last millisecond of the reference day. -/
def dailyWindowHi (refDate : Int) : Int := dayStartMs refDate + msPerDay - 1

/-- Lower bound of the weekly window: midnight of the Sunday on or before
the reference date. -/
def weeklyWindowLo (refDate : Int) : Int :=
  (dayOf refDate - (getDayOfWeek (dayOf refDate) : Int)) * msPerDay

/-- Upper bound of the weekly window: last millisecond of the following
Saturday. -/
def weeklyWindowHi (refDate : Int) : Int :=
  (dayOf refDate - (getDayOfWeek (dayOf refDate) : Int) + 7) * msPerDay - 1

/-- Lower bound of the monthly window: midnight of the first of the
reference date's month. -/
def monthlyWindowLo (refDate : Int) : Int :=
  msPerDay * daysFromCivil (civilFromDays (dayOf refDate)).1 (civilFromDays (dayOf refDate)).2.1 1

/-- Upper bound of the monthly window: last millisecond of the reference
date's month. -/
def monthlyWindowHi (refDate : Int) : Int :=
  msPerDay *
    (if (civilFromDays (dayOf refDate)).2.1 = 12 then
      daysFromCivil ((civilFromDays (dayOf refDate)).1 + 1) 1 1
    else
      daysFromCivil (civilFromDays (dayOf refDate)).1 ((civilFromDays (dayOf refDate)).2.1 + 1) 1) - 1

/-- The shifts of a list whose date falls in week-of-year `w`. -/
def shiftsInWeek (l : List Shift) (w : Int) : List Shift :=
  l.filter fun s => decide (getWeekNumber s.date = w)

/-- The completed shifts the daily handler fetches for its window. -/
def dailyFetch (db : List Shift) (uid : Nat) (refDate : Int) : List Shift :=
  db.filter (completedInWindow uid (dailyWindowLo refDate) (dailyWindowHi refDate))

/-- The completed shifts the weekly handler fetches for its window. -/
def weeklyFetch (db : List Shift) (uid : Nat) (refDate : Int) : List Shift :=
  db.filter (completedInWindow uid (weeklyWindowLo refDate) (weeklyWindowHi refDate))

/-- The completed shifts the monthly handler fetches for its window. -/
def monthlyFetch (db : List Shift) (uid : Nat) (refDate : Int) : List Shift :=
  db.filter (completedInWindow uid (monthlyWindowLo refDate) (monthlyWindowHi refDate))

/-! ## Concrete scenarios for witnesses and counterexamples -/

/-- A fixed location capture. -/
def spotLoc : Location := { latitude := 0, longitude := 0, address := "" }

/-- C2 witness: an on-break shift whose closed break time already exceeds
the elapsed time at clock-out, so the frozen work duration comes out
negative. -/
def c2wShift : Shift :=
  { id := 1
    userId := 1
    date := 0
    shiftStatus := .brk
    startTime := { timestamp := 0, location := spotLoc }
    breaks :=
      [{ type := .lunch
         startTime := { timestamp := 600000, location := spotLoc }
         endTime := some { timestamp := 1200000, location := spotLoc }
         duration := 120 },
       { type := .short
         startTime := { timestamp := 1800000, location := spotLoc }
         endTime := none
         duration := 0 }]
    endTime := none
    totalWorkDuration := 0
    totalBreakDuration := 120
    notes := "" }

/-- C7 witness database: user 1 already has an active shift. -/
def c7wDb : List Shift :=
  [{ id := 1
     userId := 1
     date := 0
     shiftStatus := .active
     startTime := { timestamp := 0, location := spotLoc }
     breaks := []
     endTime := none
     totalWorkDuration := 0
     totalBreakDuration := 0
     notes := "" }]

/-- C8 witness database: user 1 is on a lunch break opened at time 0. -/
def c8wDb : List Shift :=
  [{ id := 1
     userId := 1
     date := 0
     shiftStatus := .brk
     startTime := { timestamp := 0, location := spotLoc }
     breaks :=
       [{ type := .lunch
          startTime := { timestamp := 0, location := spotLoc }
          endTime := none
          duration := 0 }]
     endTime := none
     totalWorkDuration := 0
     totalBreakDuration := 0
     notes := "" }]

/-- C8 witness: the lunch break of `c8wDb` closed after 65.5 minutes. -/
def c8wClosedBreak : Break :=
  { type := .lunch
    startTime := { timestamp := 0, location := spotLoc }
    endTime := some { timestamp := 3930000, location := spotLoc }
    duration := 131 / 2 }

/-- C8 witness: the database after that break is closed. -/
def c8wAfterDb : List Shift :=
  [{ id := 1
     userId := 1
     date := 0
     shiftStatus := .active
     startTime := { timestamp := 0, location := spotLoc }
     breaks := [c8wClosedBreak]
     endTime := none
     totalWorkDuration := 0
     totalBreakDuration := 131 / 2
     notes := "" }]

/-- C9 witness (spec scenario E): shift started two hours before `now`,
single break opened ten minutes before `now`. -/
def c9wShift : Shift :=
  { id := 1
    userId := 1
    date := 0
    shiftStatus := .brk
    startTime := { timestamp := 0, location := spotLoc }
    breaks :=
      [{ type := .short
         startTime := { timestamp := 6600000, location := spotLoc }
         endTime := none
         duration := 0 }]
    endTime := none
    totalWorkDuration := 0
    totalBreakDuration := 0
    notes := "" }

/-- C10 witness: an active shift whose only break is already closed. -/
def c10wShift : Shift :=
  { id := 1
    userId := 1
    date := 0
    shiftStatus := .brk
    startTime := { timestamp := 0, location := spotLoc }
    breaks :=
      [{ type := .short
         startTime := { timestamp := 600000, location := spotLoc }
         endTime := some { timestamp := 900000, location := spotLoc }
         duration := 5 }]
    endTime := none
    totalWorkDuration := 0
    totalBreakDuration := 5
    notes := "" }

/-- C10 witness database holding `c10wShift`. -/
def c10wDb : List Shift := [c10wShift]

/-- C4 failing input: a completed eight-hour shift. -/
def c4Shift : Shift :=
  { id := 1
    userId := 1
    date := 0
    shiftStatus := .completed
    startTime := { timestamp := 0, location := spotLoc }
    breaks := []
    endTime := some { timestamp := 28800000, location := spotLoc }
    totalWorkDuration := 480
    totalBreakDuration := 0
    notes := "" }

/-- C4 failing input: the administrator moves the end time back to the
four-hour mark. -/
def c4Update : ShiftUpdate :=
  { notes := none, startTime := none, endTime := some 14400000, breaks := none }

/-- C6 scenario: user 1 on a short break opened at the ten-minute mark. -/
def c6Db : List Shift :=
  [{ id := 1
     userId := 1
     date := 0
     shiftStatus := .brk
     startTime := { timestamp := 0, location := spotLoc }
     breaks :=
       [{ type := .short
          startTime := { timestamp := 600000, location := spotLoc }
          endTime := none
          duration := 0 }]
     endTime := none
     totalWorkDuration := 0
     totalBreakDuration := 0
     notes := "" }]

/-- C6 scenario: the database after the first (successful) `endBreak` at
the fifteen-minute mark. -/
def c6Db' : List Shift :=
  [{ id := 1
     userId := 1
     date := 0
     shiftStatus := .active
     startTime := { timestamp := 0, location := spotLoc }
     breaks :=
       [{ type := .short
          startTime := { timestamp := 600000, location := spotLoc }
          endTime := some { timestamp := 900000, location := spotLoc }
          duration := 5 }]
     endTime := none
     totalWorkDuration := 0
     totalBreakDuration := 5
     notes := "" }]

/-- C6 scenario: the break as returned by the first `endBreak`. -/
def c6ClosedBreak : Break :=
  { type := .short
    startTime := { timestamp := 600000, location := spotLoc }
    endTime := some { timestamp := 900000, location := spotLoc }
    duration := 5 }

/-- C1 witness action sequence: start, break, a refused duplicate start,
end break, end shift — all for user 1. -/
def c1wActs : List Action :=
  [.start 1 1 0 spotLoc,
   .sBreak 1 1 .lunch 600000 spotLoc,
   .start 1 2 900000 spotLoc,
   .eBreak 1 1 1200000 spotLoc,
   .eShift 1 1 3600000 spotLoc none]

/-- C3 witness database: one completed shift with a closed break whose
stored duration is consistent. -/
def c3wDb : List Shift :=
  [{ id := 1
     userId := 1
     date := 0
     shiftStatus := .brk
     startTime := { timestamp := 0, location := spotLoc }
     breaks :=
       [{ type := .lunch
          startTime := { timestamp := 600000, location := spotLoc }
          endTime := none
          duration := 0 }]
     endTime := none
     totalWorkDuration := 0
     totalBreakDuration := 0
     notes := "" }]

/-- C5 scenario: a two-hour completed shift containing one closed one-hour
break, dated at the epoch. -/
def c5Db : List Shift :=
  [{ id := 1
     userId := 1
     date := 0
     shiftStatus := .completed
     startTime := { timestamp := 0, location := spotLoc }
     breaks :=
       [{ type := .lunch
          startTime := { timestamp := 0, location := spotLoc }
          endTime := some { timestamp := 3600000, location := spotLoc }
          duration := 60 }]
     endTime := some { timestamp := 7200000, location := spotLoc }
     totalWorkDuration := 60
     totalBreakDuration := 60
     notes := "" }]

/-! ## Helper lemmas -/

theorem endBreak_some {s : Shift} {now : Int} {loc : Location} {s' : Shift} {b : Break}
    (h : s.endBreak now loc = some (s', b)) :
    ∃ init ob, s.breaks = init ++ [ob] ∧ ob.endTime = none ∧
      b = { ob with endTime := some ⟨now, loc⟩,
                    duration := ((now - ob.startTime.timestamp : Int) : ℚ) / (1000 * 60) } ∧
      s' = { s with breaks := init ++ [b],
                    totalBreakDuration := s.totalBreakDuration +
                      ((now - ob.startTime.timestamp : Int) : ℚ) / (1000 * 60),
                    shiftStatus := .active } := by
  unfold Shift.endBreak at h
  split at h
  · exact absurd h (by simp)
  · rename_i cb hl
    split at h
    · exact absurd h (by simp)
    · rename_i he
      obtain ⟨init, hinit⟩ := List.getLast?_eq_some_iff.mp hl
      have hdrop : s.breaks.dropLast = init := by rw [hinit]; exact List.dropLast_concat
      simp only [Option.some.injEq, Prod.mk.injEq] at h
      refine ⟨init, cb, hinit, Option.not_isSome_iff_eq_none.mp he, h.2.symm, ?_⟩
      rw [← h.1, hdrop, ← h.2]

theorem endBreak_fst_facts {s : Shift} {now : Int} {loc : Location} {s' : Shift} {b : Break}
    (h : s.endBreak now loc = some (s', b)) :
    s'.shiftStatus = .active ∧ s'.userId = s.userId ∧ s'.startTime = s.startTime ∧
      s'.id = s.id ∧ s'.endTime = s.endTime := by
  obtain ⟨init, ob, _, _, _, hs⟩ := endBreak_some h
  rw [hs]
  exact ⟨rfl, rfl, rfl, rfl, rfl⟩

theorem endShift_status (s : Shift) (now : Int) (loc : Location) :
    (s.endShift now loc).shiftStatus = .completed := by
  unfold Shift.endShift
  rfl

theorem updateFirst_split (p : Shift → Bool) (f : Shift → Shift) :
    ∀ (db : List Shift) (a : Shift), db.find? p = some a →
      ∃ l₁ l₂, db = l₁ ++ a :: l₂ ∧ (∀ x ∈ l₁, p x = false) ∧
        updateFirst p f db = l₁ ++ f a :: l₂ := by
  intro db
  induction db with
  | nil => intro a h; simp at h
  | cons s rest ih =>
    intro a h
    by_cases hp : p s = true
    · rw [List.find?_cons_of_pos _ hp] at h
      cases h
      exact ⟨[], rest, by simp, by simp, by simp [updateFirst, hp]⟩
    · rw [List.find?_cons_of_neg _ hp] at h
      obtain ⟨l₁, l₂, hdb, hl₁, hup⟩ := ih a h
      refine ⟨s :: l₁, l₂, by simp [hdb], ?_, by simp [updateFirst, hp, hup]⟩
      intro x hx
      rcases List.mem_cons.mp hx with hx | hx
      · subst hx; exact Bool.not_eq_true _ ▸ (by simpa using hp)
      · exact hl₁ x hx

theorem mem_updateFirst {p : Shift → Bool} {f : Shift → Shift} {db : List Shift} {x : Shift}
    (h : x ∈ updateFirst p f db) :
    x ∈ db ∨ ∃ a, a ∈ db ∧ p a = true ∧ x = f a := by
  induction db with
  | nil => simp [updateFirst] at h
  | cons s rest ih =>
    by_cases hp : p s = true
    · rw [updateFirst, if_pos hp] at h
      rcases List.mem_cons.mp h with h | h
      · exact Or.inr ⟨s, List.mem_cons_self s rest, hp, h⟩
      · exact Or.inl (List.mem_cons_of_mem _ h)
    · rw [updateFirst, if_neg hp] at h
      rcases List.mem_cons.mp h with h | h
      · exact Or.inl (h ▸ List.mem_cons_self s rest)
      · rcases ih h with h | ⟨a, ha, hpa, hxa⟩
        · exact Or.inl (List.mem_cons_of_mem _ h)
        · exact Or.inr ⟨a, List.mem_cons_of_mem _ ha, hpa, hxa⟩

theorem closedDurSum_concat (l : List Break) (b : Break) :
    closedDurSum (l ++ [b]) =
      closedDurSum l + (if b.endTime.isSome then b.duration else 0) := by
  unfold closedDurSum
  rw [List.filter_append]
  by_cases hb : b.endTime.isSome
  · simp [hb]
  · simp [hb]

theorem applyNotes_fields (s : Shift) (notes : Option String) :
    (applyNotes s notes).shiftStatus = s.shiftStatus ∧
      (applyNotes s notes).breaks = s.breaks ∧
      (applyNotes s notes).totalBreakDuration = s.totalBreakDuration := by
  cases notes with
  | none => exact ⟨rfl, rfl, rfl⟩
  | some n =>
    by_cases hn : n = ""
    · simp [applyNotes, hn]
    · simp [applyNotes, hn]

/-! ## Claims -/

/-- Claim C10: when the model-level `endBreak` runs on a shift whose breaks
list is empty, or whose last break already has an `endTime`, it returns
`null` and the shift is left entirely unchanged — at the controller this
surfaces as the `'No active break found'` error with the database
untouched. -/
theorem endBreak_noOpenBreak_noop (s : Shift) (now : Int) (loc : Location)
    (h : s.breaks = [] ∨ ∃ b, s.breaks.getLast? = some b ∧ b.endTime.isSome = true) :
    s.endBreak now loc = none ∧
      ∀ db uid sid, db.find? (onBreakShiftQuery uid sid) = some s →
        endBreakCtrl db uid sid now loc = .error .noActiveBreakFound ∧
          step db (.eBreak uid sid now loc) = db := by
  have hnone : s.endBreak now loc = none := by
    unfold Shift.endBreak
    rcases h with h | ⟨b, hb, he⟩
    · simp [h]
    · rw [hb]; simp [he]
  refine ⟨hnone, fun db uid sid hf => ?_⟩
  constructor
  · simp only [endBreakCtrl, hf, hnone]
  · simp only [step, endBreakCtrl, hf, hnone]

/-- Claim C10 witness: ending a break on `c10wShift` (whose only break is
closed) is a no-op error. -/
theorem endBreak_noOpenBreak_noop_witness :
    (c10wShift.breaks = [] ∨
        ∃ b, c10wShift.breaks.getLast? = some b ∧ b.endTime.isSome = true) ∧
      c10wShift.endBreak 1000000 spotLoc = none ∧
      endBreakCtrl c10wDb 1 1 1000000 spotLoc = .error .noActiveBreakFound ∧
      step c10wDb (.eBreak 1 1 1000000 spotLoc) = c10wDb := by
  have h : c10wShift.breaks = [] ∨
      ∃ b, c10wShift.breaks.getLast? = some b ∧ b.endTime.isSome = true := by
    right
    refine ⟨{ type := .short
              startTime := { timestamp := 600000, location := spotLoc }
              endTime := some { timestamp := 900000, location := spotLoc }
              duration := 5 }, by decide, by decide⟩
  have main := endBreak_noOpenBreak_noop c10wShift 1000000 spotLoc h
  have hfind : c10wDb.find? (onBreakShiftQuery 1 1) = some c10wShift := by decide
  exact ⟨h, main.1, (main.2 c10wDb 1 1 hfind).1, (main.2 c10wDb 1 1 hfind).2⟩

/-- Claim C2: for every shift in state `active` or `break`, `endShift`
yields a shift with status `completed`, the new `endTime` present, and
`totalWorkDuration` equal to the elapsed minutes
`(endTime − startTime) / 60000` minus the final `totalBreakDuration`; the
value is stored as computed, with no clamping of negative results. -/
theorem endShift_roundTrip (s : Shift) (now : Int) (loc : Location)
    (_h : isActiveStatus s.shiftStatus = true) :
    (s.endShift now loc).shiftStatus = .completed ∧
      (s.endShift now loc).endTime = some { timestamp := now, location := loc } ∧
      (s.endShift now loc).totalWorkDuration =
        ((now - s.startTime.timestamp : Int) : ℚ) / (1000 * 60) -
          (s.endShift now loc).totalBreakDuration := by
  by_cases hb : s.shiftStatus = .brk
  · cases hr : s.endBreak now loc with
    | none => simp [Shift.endShift, hb, hr, Shift.calculateWorkDuration]
    | some r =>
      have hst : r.1.startTime = s.startTime := (endBreak_fst_facts hr).2.2.1
      simp [Shift.endShift, hb, hr, Shift.calculateWorkDuration, hst]
  · simp [Shift.endShift, hb, Shift.calculateWorkDuration]

/-- Claim C2 witness: ending `c2wShift` one hour in closes its open break
(30 more break minutes, 150 total), stamps the end time and stores the
negative work duration 60 − 150 = −90 unclamped. -/
theorem endShift_roundTrip_witness :
    isActiveStatus c2wShift.shiftStatus = true ∧
      (c2wShift.endShift 3600000 spotLoc).shiftStatus = .completed ∧
      (c2wShift.endShift 3600000 spotLoc).endTime =
        some { timestamp := 3600000, location := spotLoc } ∧
      (c2wShift.endShift 3600000 spotLoc).totalWorkDuration =
        ((3600000 - c2wShift.startTime.timestamp : Int) : ℚ) / (1000 * 60) -
          (c2wShift.endShift 3600000 spotLoc).totalBreakDuration ∧
      (c2wShift.endShift 3600000 spotLoc).totalWorkDuration = -90 := by
  have main := endShift_roundTrip c2wShift 3600000 spotLoc (by decide)
  refine ⟨by decide, main.1, main.2.1, main.2.2, ?_⟩
  norm_num [c2wShift, Shift.endShift, Shift.endBreak, Shift.calculateWorkDuration, spotLoc]

/-- Claim C7: `startShift` for a user who already has a shift in status
`active` or `break` returns the duplicate-active-shift error carrying that
shift; no shift is created and the database is unchanged. -/
theorem startShift_refused_when_active (db : List Shift) (uid newId : Nat) (now : Int)
    (loc : Location) (h : (db.find? (isActiveFor uid)).isSome = true) :
    ∃ ex, db.find? (isActiveFor uid) = some ex ∧
      startShiftCtrl db uid newId now loc = .error (.duplicateActiveShift ex) ∧
      step db (.start uid newId now loc) = db := by
  cases hf : db.find? (isActiveFor uid) with
  | none => rw [hf] at h; exact absurd h (by simp)
  | some ex =>
    refine ⟨ex, rfl, ?_, ?_⟩
    · simp only [startShiftCtrl, hf]
    · simp only [step, startShiftCtrl, hf]

/-- Claim C7 witness: user 1 of `c7wDb` already has an active shift, so a
second `startShift` is refused and the database is untouched. -/
theorem startShift_refused_when_active_witness :
    (c7wDb.find? (isActiveFor 1)).isSome = true ∧
      ∃ ex, c7wDb.find? (isActiveFor 1) = some ex ∧
        startShiftCtrl c7wDb 1 2 600000 spotLoc = .error (.duplicateActiveShift ex) ∧
        step c7wDb (.start 1 2 600000 spotLoc) = c7wDb :=
  ⟨by decide, startShift_refused_when_active c7wDb 1 2 600000 spotLoc (by decide)⟩

/-- Claim C8: a break closed by the `endBreak` handler stores the exact
(fractional, unfloored) elapsed minutes `(now − startTime) / 60000`, and the
break-exceeded notification is produced exactly when that duration strictly
exceeds the type's recommended maximum (60 lunch / 15 short), carrying the
rounded exceeded-by minute count. -/
theorem endBreak_duration_and_notification (db : List Shift) (uid sid : Nat) (now : Int)
    (loc : Location) (db' : List Shift) (b : Break) (notif : Option (BreakType × Int))
    (h : endBreakCtrl db uid sid now loc = .ok (db', b, notif)) :
    b.duration = ((now - b.startTime.timestamp : Int) : ℚ) / (1000 * 60) ∧
      maxBreakDuration .lunch = 60 ∧ maxBreakDuration .short = 15 ∧
      (notif.isSome = true ↔ maxBreakDuration b.type < b.duration) ∧
      ∀ e, notif = some e → e = (b.type, jsRound (b.duration - maxBreakDuration b.type)) := by
  unfold endBreakCtrl at h
  cases hf : db.find? (onBreakShiftQuery uid sid) with
  | none => simp only [hf] at h; exact Except.noConfusion h
  | some shift =>
    simp only [hf] at h
    cases hr : shift.endBreak now loc with
    | none => simp only [hr] at h; exact Except.noConfusion h
    | some r =>
      simp only [hr] at h
      obtain ⟨init, ob, hbr, hoe, hbdef, _⟩ := endBreak_some hr
      simp only [Except.ok.injEq, Prod.mk.injEq] at h
      obtain ⟨-, hb, hnotif⟩ := h
      subst hb
      have hdur : r.2.duration = ((now - r.2.startTime.timestamp : Int) : ℚ) / (1000 * 60) := by
        rw [hbdef]
      refine ⟨hdur, rfl, rfl, ?_, ?_⟩
      · rw [← hnotif]
        by_cases hx : maxBreakDuration r.2.type < r.2.duration
        · simp [hx]
        · simp [hx]
      · intro e he
        rw [← hnotif] at he
        by_cases hx : maxBreakDuration r.2.type < r.2.duration
        · rw [if_pos hx] at he
          exact (Option.some.injEq _ _ ▸ he).symm
        · rw [if_neg hx] at he
          exact absurd he (by simp)

/-- Claim C8 witness: closing the lunch break of `c8wDb` after 65.5 minutes
stores the fractional duration 131/2 and notifies with
`round(65.5 − 60) = 6` exceeded minutes. -/
theorem endBreak_duration_and_notification_witness :
    endBreakCtrl c8wDb 1 1 3930000 spotLoc =
        .ok (c8wAfterDb, c8wClosedBreak, some (.lunch, 6)) ∧
      c8wClosedBreak.duration =
        ((3930000 - c8wClosedBreak.startTime.timestamp : Int) : ℚ) / (1000 * 60) ∧
      (maxBreakDuration c8wClosedBreak.type < c8wClosedBreak.duration ∧
        c8wClosedBreak.duration = 131 / 2) := by
  have hc : endBreakCtrl c8wDb 1 1 3930000 spotLoc =
      .ok (c8wAfterDb, c8wClosedBreak, some (.lunch, 6)) := by
    norm_num [endBreakCtrl, c8wDb, c8wAfterDb, c8wClosedBreak, Shift.endBreak, updateFirst,
      onBreakShiftQuery, maxBreakDuration, jsRound, spotLoc, List.find?]
  have main := endBreak_duration_and_notification c8wDb 1 1 3930000 spotLoc
    c8wAfterDb c8wClosedBreak (some (.lunch, 6)) hc
  refine ⟨hc, main.1, (main.2.2.2.1.mp (by simp)), ?_⟩
  norm_num [c8wClosedBreak]

/-- Claim C4 (code bug): the administrator override `updateShift`, after
moving `endTime` of `c4Shift` from the eight-hour to the four-hour mark,
leaves `totalWorkDuration` at its stale value 480 even though recomputing
it from the new timestamps (`calculateWorkDuration`) yields 240; the source
assigns the recomputed hours to `shift.duration`, a path that is not part
of the shift schema. -/
theorem updateShift_leaves_stale_duration :
    (updateShiftCtrl c4Shift c4Update true).endTime =
        some { timestamp := 14400000, location := spotLoc } ∧
      (updateShiftCtrl c4Shift c4Update true).startTime.timestamp = 0 ∧
      (updateShiftCtrl c4Shift c4Update true).totalWorkDuration = 480 ∧
      (updateShiftCtrl c4Shift c4Update true).calculateWorkDuration = 240 ∧
      (480 : ℚ) ≠ 240 := by
  refine ⟨by decide, by decide, by decide, ?_, by norm_num⟩
  norm_num [updateShiftCtrl, c4Shift, c4Update, Shift.calculateWorkDuration, spotLoc]

/-- Claim C9 (spec-modelled): for a shift on break, `computeLiveDuration`
returns work minutes from the effective start (the previous break's end
time when earlier breaks exist, else the shift start) to the open break's
start, and break minutes from the open break's start to `now`. -/
theorem computeLiveDuration_onBreak (s : Shift) (now : Int) (pre : List Break) (lb : Break)
    (hst : s.shiftStatus = .brk) (hbr : s.breaks = pre ++ [lb]) :
    computeLiveDuration s now =
      some (((lb.startTime.timestamp -
            (match pre.getLast? with
             | some prev =>
               match prev.endTime with
               | some e => e.timestamp
               | none => s.startTime.timestamp
             | none => s.startTime.timestamp) : Int) : ℚ) / (1000 * 60),
        ((now - lb.startTime.timestamp : Int) : ℚ) / (1000 * 60)) := by
  unfold computeLiveDuration
  rw [hst, hbr]
  simp only [List.getLast?_concat, List.dropLast_concat]

/-- Claim C9 witness (spec scenario E): on `c9wShift`, with the break opened
110 minutes after the shift start and `now` ten minutes later, the live
durations are 110 work minutes and 10 break minutes. -/
theorem computeLiveDuration_onBreak_witness :
    c9wShift.shiftStatus = .brk ∧
      computeLiveDuration c9wShift 7200000 = some (110, 10) := by
  have main := computeLiveDuration_onBreak c9wShift 7200000 []
    { type := .short, startTime := { timestamp := 6600000, location := spotLoc },
      endTime := none, duration := 0 } (by decide) (by decide)
  refine ⟨by decide, ?_⟩
  rw [main]
  norm_num [c9wShift]

/-- Claim C6 counterexample: on `c6Db` the first `endBreak` succeeds, but
the second one returns the 404 `'Shift on break not found'` error — not the
`'No active break found'` error that embodies `NoOpenBreak` (the model-level
no-breaks / last-break-closed branch, models/shift.js lines 123 and 126). -/
theorem endBreak_twice_counterexample :
    endBreakCtrl c6Db 1 1 900000 spotLoc = .ok (c6Db', c6ClosedBreak, none) ∧
      endBreakCtrl c6Db' 1 1 1200000 spotLoc = .error .shiftOnBreakNotFound ∧
      endBreakCtrl c6Db' 1 1 1200000 spotLoc ≠ .error .noActiveBreakFound := by
  have h2 : endBreakCtrl c6Db' 1 1 1200000 spotLoc = .error .shiftOnBreakNotFound := rfl
  refine ⟨?_, h2, ?_⟩
  · norm_num [endBreakCtrl, c6Db, c6Db', c6ClosedBreak, Shift.endBreak, updateFirst,
      onBreakShiftQuery, maxBreakDuration, jsRound, spotLoc, List.find?]
  · rw [h2]
    simp

/-- Claim C6 amended: when `endBreak` succeeds for a shift fetched by a
unique id, a second `endBreak` for the same shift returns the controller's
404 `'Shift on break not found'` error — the shift is back in `active`
status, so the `'break'`-status query matches nothing and the model-level
no-open-break branch (`'No active break found'`) is never reached. -/
theorem endBreak_twice_not_found (db db' : List Shift) (uid sid : Nat) (t1 t2 : Int)
    (l1 l2 : Location) (b : Break) (notif : Option (BreakType × Int))
    (hid : (db.filter fun s => decide (s.id = sid)).length ≤ 1)
    (h1 : endBreakCtrl db uid sid t1 l1 = .ok (db', b, notif)) :
    endBreakCtrl db' uid sid t2 l2 = .error .shiftOnBreakNotFound := by
  unfold endBreakCtrl at h1
  cases hf : db.find? (onBreakShiftQuery uid sid) with
  | none => simp only [hf] at h1; exact Except.noConfusion h1
  | some s0 =>
    simp only [hf] at h1
    cases hr : s0.endBreak t1 l1 with
    | none => simp only [hr] at h1; exact Except.noConfusion h1
    | some r =>
      simp only [hr, Except.ok.injEq, Prod.mk.injEq] at h1
      obtain ⟨hdb', -, -⟩ := h1
      obtain ⟨l₁, l₂, hdb, hnol, hupd⟩ :=
        updateFirst_split (onBreakShiftQuery uid sid) (fun _ => r.1) db s0 hf
      have hq0 := List.find?_some hf
      have hid0 : s0.id = sid := by
        unfold onBreakShiftQuery at hq0
        simp only [Bool.and_eq_true, decide_eq_true_eq] at hq0
        exact hq0.1.1
      have hl₂ : ∀ x ∈ l₂, x.id ≠ sid := by
        intro x hx hxid
        have h2 : 2 ≤ (db.filter fun s => decide (s.id = sid)).length := by
          rw [hdb, List.filter_append, List.length_append, List.filter_cons]
          have hx1 : 1 ≤ (l₂.filter fun s => decide (s.id = sid)).length :=
            List.length_pos.mpr (List.ne_nil_of_mem
              (List.mem_filter.mpr ⟨hx, by simp [hxid]⟩))
          simp [hid0]
          omega
        omega
      have hnone : db'.find? (onBreakShiftQuery uid sid) = none := by
        rw [← hdb', hupd]
        apply List.find?_eq_none.mpr
        intro x hx
        rcases List.mem_append.mp hx with hx | hx
        · simp [hnol x hx]
        · rcases List.mem_cons.mp hx with hx | hx
          · subst hx
            have hact : r.1.shiftStatus = .active := (endBreak_fst_facts hr).1
            unfold onBreakShiftQuery
            simp [hact]
          · intro hq
            unfold onBreakShiftQuery at hq
            simp only [Bool.and_eq_true, decide_eq_true_eq] at hq
            exact hl₂ x hx hq.1.1
      simp only [endBreakCtrl, hnone]

/-- Claim C6 amended witness: the concrete `c6Db` scenario, with ids unique
and the first `endBreak` succeeding, makes the second `endBreak` return the
shift-on-break-not-found error. -/
theorem endBreak_twice_not_found_witness :
    (c6Db.filter fun s => decide (s.id = 1)).length ≤ 1 ∧
      endBreakCtrl c6Db 1 1 900000 spotLoc = .ok (c6Db', c6ClosedBreak, none) ∧
      endBreakCtrl c6Db' 1 1 1200000 spotLoc = .error .shiftOnBreakNotFound := by
  have h1 : endBreakCtrl c6Db 1 1 900000 spotLoc = .ok (c6Db', c6ClosedBreak, none) := by
    norm_num [endBreakCtrl, c6Db, c6Db', c6ClosedBreak, Shift.endBreak, updateFirst,
      onBreakShiftQuery, maxBreakDuration, jsRound, spotLoc, List.find?]
  exact ⟨by decide, h1,
    endBreak_twice_not_found c6Db c6Db' 1 1 900000 1200000 spotLoc spotLoc
      c6ClosedBreak none (by decide) h1⟩

/-! ## Lemmas for the at-most-one-active-shift invariant (C1) -/

theorem countActive_append (db l : List Shift) (uid : Nat) :
    countActive (db ++ l) uid = countActive db uid + countActive l uid := by
  unfold countActive
  rw [List.filter_append, List.length_append]

theorem countActive_updateFirst_le (uid : Nat) (p : Shift → Bool) (f : Shift → Shift)
    (db : List Shift)
    (hmono : ∀ s, p s = true → isActiveFor uid (f s) = true → isActiveFor uid s = true) :
    countActive (updateFirst p f db) uid ≤ countActive db uid := by
  induction db with
  | nil => exact Nat.le_refl _
  | cons s rest ih =>
    unfold updateFirst
    by_cases hp : p s = true
    · rw [if_pos hp]
      unfold countActive
      rw [List.filter_cons, List.filter_cons]
      by_cases hc : isActiveFor uid (f s) = true
      · rw [if_pos hc, if_pos (hmono s hp hc)]
        simp
      · rw [if_neg hc]
        by_cases hs : isActiveFor uid s = true
        · rw [if_pos hs]
          simp only [List.length_cons]
          omega
        · rw [if_neg hs]
    · rw [if_neg hp]
      unfold countActive at ih ⊢
      rw [List.filter_cons, List.filter_cons]
      by_cases hs : isActiveFor uid s = true
      · rw [if_pos hs, if_pos hs]
        simpa using ih
      · rw [if_neg hs, if_neg hs]
        exact ih

theorem countActive_step_le (db : List Shift) (a : Action) (uid : Nat)
    (h : countActive db uid ≤ 1) : countActive (step db a) uid ≤ 1 := by
  cases a with
  | start uid' newId now loc =>
    unfold step
    cases hf : db.find? (isActiveFor uid') with
    | some s => simp only [startShiftCtrl, hf]; exact h
    | none =>
      simp only [startShiftCtrl, hf]
      rw [countActive_append]
      by_cases hu : uid' = uid
      · subst hu
        have h0 : countActive db uid' = 0 := by
          unfold countActive
          rw [List.length_eq_zero, List.filter_eq_nil_iff]
          exact fun x hx => List.find?_eq_none.mp hf x hx
        rw [h0]
        simp [countActive, List.filter, isActiveFor, isActiveStatus]
      · have h1 : countActive
            [({ id := newId, userId := uid', date := now, shiftStatus := .active,
                startTime := { timestamp := now, location := loc }, breaks := [],
                endTime := none, totalWorkDuration := 0, totalBreakDuration := 0,
                notes := "" } : Shift)] uid = 0 := by
          simp [countActive, List.filter, isActiveFor, hu]
        rw [h1]
        omega
  | sBreak uid' sid bt now loc =>
    unfold step
    cases hf : db.find? (activeShiftQuery uid' sid) with
    | none => simp only [startBreakCtrl, hf]; exact h
    | some s0 =>
      simp only [startBreakCtrl, hf]
      refine le_trans (countActive_updateFirst_le uid _ _ db ?_) h
      intro s hp hc
      have hs0q := List.find?_some hf
      unfold activeShiftQuery at hs0q hp
      simp only [Bool.and_eq_true, decide_eq_true_eq] at hs0q hp
      unfold isActiveFor at hc ⊢
      simp only [Shift.startBreak, Bool.and_eq_true, decide_eq_true_eq] at hc
      simp only [Bool.and_eq_true, decide_eq_true_eq]
      exact ⟨by rw [hp.1.2, ← hs0q.1.2]; exact hc.1, by rw [hp.2]; rfl⟩
  | eBreak uid' sid now loc =>
    unfold step
    cases hf : db.find? (onBreakShiftQuery uid' sid) with
    | none => simp only [endBreakCtrl, hf]; exact h
    | some s0 =>
      cases hr : s0.endBreak now loc with
      | none => simp only [endBreakCtrl, hf, hr]; exact h
      | some r =>
        simp only [endBreakCtrl, hf, hr]
        refine le_trans (countActive_updateFirst_le uid _ _ db ?_) h
        intro s hp hc
        have hs0q := List.find?_some hf
        unfold onBreakShiftQuery at hs0q hp
        simp only [Bool.and_eq_true, decide_eq_true_eq] at hs0q hp
        have huid : r.1.userId = s0.userId := (endBreak_fst_facts hr).2.1
        unfold isActiveFor at hc ⊢
        simp only [Bool.and_eq_true, decide_eq_true_eq] at hc
        simp only [Bool.and_eq_true, decide_eq_true_eq]
        exact ⟨by rw [hp.1.2, ← hs0q.1.2, ← huid]; exact hc.1, by rw [hp.2]; rfl⟩
  | eShift uid' sid now loc notes =>
    unfold step
    cases hf : db.find? (activeOrBreakShiftQuery uid' sid) with
    | none => simp only [endShiftCtrl, hf]; exact h
    | some s0 =>
      simp only [endShiftCtrl, hf]
      refine le_trans (countActive_updateFirst_le uid _ _ db ?_) h
      intro s _ hc
      exfalso
      have hst : (applyNotes (s0.endShift now loc) notes).shiftStatus = .completed := by
        rw [(applyNotes_fields (s0.endShift now loc) notes).1]
        exact endShift_status s0 now loc
      unfold isActiveFor at hc
      rw [hst] at hc
      simp [isActiveStatus] at hc

theorem countActive_run_le (acts : List Action) (db : List Shift) (uid : Nat)
    (h : countActive db uid ≤ 1) : countActive (run db acts) uid ≤ 1 := by
  induction acts generalizing db with
  | nil => exact h
  | cons a rest ih => exact ih (step db a) (countActive_step_le db a uid h)

/-- Claim C1: starting from a database holding no shifts at all for a user,
any sequence of the four guarded lifecycle requests leaves the user with at
most one shift in `active` or `break` status; and whenever such a shift
exists, a further `startShift` is refused with the duplicate error and
changes nothing. -/
theorem atMostOne_active_per_user (acts : List Action) (db : List Shift) (uid : Nat)
    (h : ∀ s ∈ db, s.userId ≠ uid) :
    countActive (run db acts) uid ≤ 1 ∧
      ∀ newId now loc, 1 ≤ countActive (run db acts) uid →
        ∃ ex, startShiftCtrl (run db acts) uid newId now loc =
            .error (.duplicateActiveShift ex) ∧
          step (run db acts) (.start uid newId now loc) = run db acts := by
  have h0 : countActive db uid = 0 := by
    unfold countActive
    rw [List.length_eq_zero, List.filter_eq_nil_iff]
    intro x hx
    unfold isActiveFor
    simp [h x hx]
  constructor
  · exact countActive_run_le acts db uid (by omega)
  · intro newId now loc h1
    cases hf : (run db acts).find? (isActiveFor uid) with
    | none =>
      exfalso
      have hz : countActive (run db acts) uid = 0 := by
        unfold countActive
        rw [List.length_eq_zero, List.filter_eq_nil_iff]
        exact fun x hx => List.find?_eq_none.mp hf x hx
      omega
    | some ex =>
      exact ⟨ex, by simp only [startShiftCtrl, hf], by simp only [step, startShiftCtrl, hf]⟩

/-- Claim C1 witness: running start / start-break / refused duplicate start
/ end-break / end-shift for user 1 from the empty database keeps the active
count at most one, and the duplicate start while on break is refused
outright. -/
theorem atMostOne_active_per_user_witness :
    countActive (run [] c1wActs) 1 ≤ 1 ∧
      ∃ ex, startShiftCtrl (run [] [.start 1 1 0 spotLoc, .sBreak 1 1 .lunch 600000 spotLoc])
          1 7 700000 spotLoc = .error (.duplicateActiveShift ex) ∧
        step (run [] [.start 1 1 0 spotLoc, .sBreak 1 1 .lunch 600000 spotLoc])
            (.start 1 7 700000 spotLoc) =
          run [] [.start 1 1 0 spotLoc, .sBreak 1 1 .lunch 600000 spotLoc] :=
  ⟨(atMostOne_active_per_user c1wActs [] 1 (by simp)).1,
   (atMostOne_active_per_user [.start 1 1 0 spotLoc, .sBreak 1 1 .lunch 600000 spotLoc]
      [] 1 (by simp)).2 7 700000 spotLoc (by decide)⟩

/-! ## Lemmas for the break-duration bookkeeping invariant (C3) -/

theorem startBreak_breakInv (s : Shift) (bt : BreakType) (now : Int) (loc : Location)
    (h : s.totalBreakDuration = closedDurSum s.breaks) :
    (s.startBreak bt now loc).1.totalBreakDuration =
      closedDurSum (s.startBreak bt now loc).1.breaks := by
  unfold Shift.startBreak
  simp only []
  rw [closedDurSum_concat]
  simp [h]

theorem endBreak_breakInv {s : Shift} {now : Int} {loc : Location} {r : Shift × Break}
    (hr : s.endBreak now loc = some r)
    (h : s.totalBreakDuration = closedDurSum s.breaks) :
    r.1.totalBreakDuration = closedDurSum r.1.breaks := by
  obtain ⟨init, ob, hbr, hoe, hbdef, hs'⟩ := endBreak_some hr
  rw [hbr, closedDurSum_concat, hoe] at h
  simp only [Option.isSome_none, Bool.false_eq_true, if_false, add_zero] at h
  rw [hs']
  simp only []
  rw [closedDurSum_concat, hbdef]
  simp only [Option.isSome_some, if_true]
  rw [h]

theorem endShift_breakInv (s : Shift) (now : Int) (loc : Location)
    (h : s.totalBreakDuration = closedDurSum s.breaks) :
    (s.endShift now loc).totalBreakDuration = closedDurSum (s.endShift now loc).breaks := by
  unfold Shift.endShift
  by_cases hb : s.shiftStatus = .brk
  · cases hr : s.endBreak now loc with
    | none => simp only [hb, if_pos, hr]; exact h
    | some r => simp only [hb, if_pos, hr]; exact endBreak_breakInv hr h
  · simp only [hb, if_neg, if_false]
    exact h

/-- Claim C3: if every shift of the database has `totalBreakDuration` equal
to the sum of the stored `duration` over its closed breaks, then after any
one of the four lifecycle transitions every shift still does. -/
theorem totalBreakDuration_tracks_closed_breaks (db : List Shift) (a : Action)
    (h : ∀ s ∈ db, s.totalBreakDuration = closedDurSum s.breaks) :
    ∀ s ∈ step db a, s.totalBreakDuration = closedDurSum s.breaks := by
  intro x hx
  cases a with
  | start uid newId now loc =>
    unfold step at hx
    cases hf : db.find? (isActiveFor uid) with
    | some s => simp only [startShiftCtrl, hf] at hx; exact h x hx
    | none =>
      simp only [startShiftCtrl, hf] at hx
      rcases List.mem_append.mp hx with hx | hx
      · exact h x hx
      · rw [List.mem_singleton.mp hx]
        rfl
  | sBreak uid sid bt now loc =>
    unfold step at hx
    cases hf : db.find? (activeShiftQuery uid sid) with
    | none => simp only [startBreakCtrl, hf] at hx; exact h x hx
    | some s0 =>
      simp only [startBreakCtrl, hf] at hx
      rcases mem_updateFirst hx with hx | ⟨a', ha', -, hxa⟩
      · exact h x hx
      · rw [hxa]
        exact startBreak_breakInv s0 bt now loc (h s0 (List.mem_of_find?_eq_some hf))
  | eBreak uid sid now loc =>
    unfold step at hx
    cases hf : db.find? (onBreakShiftQuery uid sid) with
    | none => simp only [endBreakCtrl, hf] at hx; exact h x hx
    | some s0 =>
      cases hr : s0.endBreak now loc with
      | none => simp only [endBreakCtrl, hf, hr] at hx; exact h x hx
      | some r =>
        simp only [endBreakCtrl, hf, hr] at hx
        rcases mem_updateFirst hx with hx | ⟨a', ha', -, hxa⟩
        · exact h x hx
        · rw [hxa]
          exact endBreak_breakInv hr (h s0 (List.mem_of_find?_eq_some hf))
  | eShift uid sid now loc notes =>
    unfold step at hx
    cases hf : db.find? (activeOrBreakShiftQuery uid sid) with
    | none => simp only [endShiftCtrl, hf] at hx; exact h x hx
    | some s0 =>
      simp only [endShiftCtrl, hf] at hx
      rcases mem_updateFirst hx with hx | ⟨a', ha', -, hxa⟩
      · exact h x hx
      · rw [hxa]
        rw [(applyNotes_fields (s0.endShift now loc) notes).2.1,
            (applyNotes_fields (s0.endShift now loc) notes).2.2]
        exact endShift_breakInv s0 now loc (h s0 (List.mem_of_find?_eq_some hf))

/-- C3 witness: the shift of `c3wDb` after its break is ended at the
20-minute mark (10 break minutes accumulated). -/
def c3wAfterShift : Shift :=
  { id := 1
    userId := 1
    date := 0
    shiftStatus := .active
    startTime := { timestamp := 0, location := spotLoc }
    breaks :=
      [{ type := .lunch
         startTime := { timestamp := 600000, location := spotLoc }
         endTime := some { timestamp := 1200000, location := spotLoc }
         duration := 10 }]
    endTime := none
    totalWorkDuration := 0
    totalBreakDuration := 10
    notes := "" }

/-- Claim C3 witness: ending the open break of `c3wDb` yields
`c3wAfterShift`, whose `totalBreakDuration` (10) equals the closed-break
duration sum. -/
theorem totalBreakDuration_tracks_closed_breaks_witness :
    c3wAfterShift.totalBreakDuration = closedDurSum c3wAfterShift.breaks :=
  totalBreakDuration_tracks_closed_breaks c3wDb (.eBreak 1 1 1200000 spotLoc)
    (by decide) c3wAfterShift
    (by norm_num [step, endBreakCtrl, c3wDb, c3wAfterShift, Shift.endBreak, updateFirst,
      onBreakShiftQuery, maxBreakDuration, jsRound, spotLoc, List.find?])

/-! ## Lemmas for the statistics aggregation (C5) -/

theorem insertByDate_perm (s : Shift) (l : List Shift) :
    (insertByDate s l).Perm (s :: l) := by
  induction l with
  | nil => exact List.Perm.refl _
  | cons t ts ih =>
    unfold insertByDate
    by_cases hd : s.date ≤ t.date
    · rw [if_pos hd]
    · rw [if_neg hd]
      exact (ih.cons t).trans (List.Perm.swap s t ts)

theorem sortByDate_perm (l : List Shift) : (sortByDate l).Perm l := by
  induction l with
  | nil => exact List.Perm.refl _
  | cons s ss ih => exact (insertByDate_perm s (sortByDate ss)).trans (ih.cons s)

theorem statsBreakFold_eq (b0 : ℚ) (bs : List Break) :
    bs.foldl statsBreakFold b0 =
      b0 + ((bs.filter fun bk => bk.endTime.isSome).map computeBreakDuration).sum := by
  induction bs generalizing b0 with
  | nil => simp
  | cons bk rest ih =>
    rw [List.foldl_cons]
    cases he : bk.endTime with
    | none => simp [statsBreakFold, he, List.filter_cons, ih]
    | some e =>
      simp [statsBreakFold, he, List.filter_cons, computeBreakDuration, ih]
      ring

theorem dailyAccum_foldl (l : List Shift) (acc : ℚ × ℚ) :
    l.foldl dailyAccum acc =
      (acc.1 + (l.map rawShiftHours).sum, acc.2 + (l.map computeTotalBreakDuration).sum) := by
  induction l generalizing acc with
  | nil => simp
  | cons s rest ih =>
    rw [List.foldl_cons, ih]
    have h1 : (dailyAccum acc s).1 = acc.1 + rawShiftHours s := by
      unfold dailyAccum rawShiftHours
      cases s.endTime <;> simp
    have h2 : (dailyAccum acc s).2 = acc.2 + computeTotalBreakDuration s := by
      unfold dailyAccum computeTotalBreakDuration
      cases s.endTime <;> simp [statsBreakFold_eq]
    rw [h1, h2, List.map_cons, List.map_cons, List.sum_cons, List.sum_cons]
    simp only [Prod.mk.injEq]
    exact ⟨by ring, by ring⟩

theorem weeklyBreakFold_snd (i : Nat) (bs : List Break) (a : List WeekDayStat × ℚ) :
    (bs.foldl (weeklyBreakFold i) a).2 =
      a.2 + ((bs.filter fun bk => bk.endTime.isSome).map computeBreakDuration).sum := by
  induction bs generalizing a with
  | nil => simp
  | cons bk rest ih =>
    rw [List.foldl_cons]
    cases he : bk.endTime with
    | none => simp [weeklyBreakFold, he, List.filter_cons, ih]
    | some e =>
      simp [weeklyBreakFold, he, List.filter_cons, computeBreakDuration, ih]
      ring

theorem weeklyAccum_totals (l : List Shift) (acc : List WeekDayStat × ℚ × ℚ) :
    (l.foldl weeklyAccum acc).2.1 = acc.2.1 + (l.map rawShiftHours).sum ∧
      (l.foldl weeklyAccum acc).2.2 = acc.2.2 + (l.map computeTotalBreakDuration).sum := by
  induction l generalizing acc with
  | nil => simp
  | cons s rest ih =>
    rw [List.foldl_cons]
    have h1 : (weeklyAccum acc s).2.1 = acc.2.1 + rawShiftHours s := by
      unfold weeklyAccum rawShiftHours
      cases s.endTime <;> simp
    have h2 : (weeklyAccum acc s).2.2 = acc.2.2 + computeTotalBreakDuration s := by
      unfold weeklyAccum computeTotalBreakDuration
      cases s.endTime <;> simp [weeklyBreakFold_snd]
    obtain ⟨ih1, ih2⟩ := ih (weeklyAccum acc s)
    rw [ih1, ih2, h1, h2, List.map_cons, List.map_cons, List.sum_cons, List.sum_cons]
    constructor <;> ring

theorem lookupWeek_nil (w : Int) : lookupWeek [] w = none := rfl

theorem lookupWeek_cons (x : Int) (b : MonthWeekAcc) (rest : List (Int × MonthWeekAcc))
    (w : Int) :
    lookupWeek ((x, b) :: rest) w = if x = w then some b else lookupWeek rest w := by
  unfold lookupWeek
  by_cases hx : x = w
  · rw [List.find?_cons_of_pos _ (by simp [hx]), if_pos hx]
  · rw [List.find?_cons_of_neg _ (by simp [hx]), if_neg hx]

theorem assocModify_cons (w : Int) (f : MonthWeekAcc → MonthWeekAcc) (x : Int)
    (b : MonthWeekAcc) (rest : List (Int × MonthWeekAcc)) :
    assocModify w f ((x, b) :: rest) =
      if x = w then (x, f b) :: rest else (x, b) :: assocModify w f rest := rfl

theorem lookupWeek_append_single (ws : List (Int × MonthWeekAcc)) (w0 w : Int)
    (a : MonthWeekAcc) :
    lookupWeek (ws ++ [(w0, a)]) w =
      match lookupWeek ws w with
      | some x => some x
      | none => if w0 = w then some a else none := by
  induction ws with
  | nil =>
    rw [List.nil_append, lookupWeek_cons, lookupWeek_nil]
  | cons p rest ih =>
    obtain ⟨x, b⟩ := p
    rw [List.cons_append, lookupWeek_cons, lookupWeek_cons]
    by_cases hx : x = w
    · rw [if_pos hx, if_pos hx]
    · rw [if_neg hx, if_neg hx, ih]

theorem assocModify_of_lookup_none (w : Int) (f : MonthWeekAcc → MonthWeekAcc)
    (ws : List (Int × MonthWeekAcc)) (h : lookupWeek ws w = none) :
    assocModify w f ws = ws := by
  induction ws with
  | nil => rfl
  | cons p rest ih =>
    obtain ⟨x, b⟩ := p
    rw [lookupWeek_cons] at h
    rw [assocModify_cons]
    by_cases hx : x = w
    · rw [if_pos hx] at h; exact absurd h (by simp)
    · rw [if_neg hx] at h
      rw [if_neg hx, ih h]

theorem lookupWeek_assocModify_self (w : Int) (f : MonthWeekAcc → MonthWeekAcc)
    (ws : List (Int × MonthWeekAcc)) (a : MonthWeekAcc) (h : lookupWeek ws w = some a) :
    lookupWeek (assocModify w f ws) w = some (f a) := by
  induction ws with
  | nil => rw [lookupWeek_nil] at h; exact absurd h (by simp)
  | cons p rest ih =>
    obtain ⟨x, b⟩ := p
    rw [lookupWeek_cons] at h
    rw [assocModify_cons]
    by_cases hx : x = w
    · rw [if_pos hx] at h
      rw [if_pos hx, lookupWeek_cons, if_pos hx]
      simp only [Option.some.injEq] at h
      rw [h]
    · rw [if_neg hx] at h
      rw [if_neg hx, lookupWeek_cons, if_neg hx]
      exact ih h

theorem lookupWeek_assocModify_ne (w w' : Int) (f : MonthWeekAcc → MonthWeekAcc)
    (ws : List (Int × MonthWeekAcc)) (hne : w' ≠ w) :
    lookupWeek (assocModify w f ws) w' = lookupWeek ws w' := by
  induction ws with
  | nil => rfl
  | cons p rest ih =>
    obtain ⟨x, b⟩ := p
    rw [assocModify_cons]
    by_cases hx : x = w
    · have hx' : ¬x = w' := by rw [hx]; exact fun hc => hne hc.symm
      rw [if_pos hx, lookupWeek_cons, lookupWeek_cons, if_neg hx', if_neg hx']
    · rw [if_neg hx, lookupWeek_cons, lookupWeek_cons]
      by_cases hx' : x = w'
      · rw [if_pos hx', if_pos hx']
      · rw [if_neg hx', if_neg hx', ih]

theorem monthlyBreakFold_foldl (w : Int) (bs : List Break)
    (acc : ℚ × List (Int × MonthWeekAcc)) :
    (bs.foldl (monthlyBreakFold w) acc).1 =
        acc.1 + ((bs.filter fun bk => bk.endTime.isSome).map computeBreakDuration).sum ∧
      (lookupWeek acc.2 w = none → (bs.foldl (monthlyBreakFold w) acc).2 = acc.2) ∧
      (∀ w' : Int, w' ≠ w →
        lookupWeek (bs.foldl (monthlyBreakFold w) acc).2 w' = lookupWeek acc.2 w') ∧
      (∀ a, lookupWeek acc.2 w = some a →
        lookupWeek (bs.foldl (monthlyBreakFold w) acc).2 w =
          some { a with breaks := a.breaks +
            ((bs.filter fun bk => bk.endTime.isSome).map computeBreakDuration).sum }) := by
  induction bs generalizing acc with
  | nil =>
    refine ⟨by simp, fun _ => rfl, fun w' _ => rfl, fun a ha => ?_⟩
    rw [List.foldl_nil, ha]
    simp
  | cons bk rest ih =>
    rw [List.foldl_cons]
    cases he : bk.endTime with
    | none =>
      have hstep : monthlyBreakFold w acc bk = acc := by
        simp only [monthlyBreakFold, he]
      rw [hstep]
      obtain ⟨i1, i2, i3, i4⟩ := ih acc
      refine ⟨?_, i2, i3, ?_⟩
      · rw [i1]; simp [List.filter_cons, he]
      · intro a ha
        rw [i4 a ha]
        simp [List.filter_cons, he]
    | some e =>
      have hstep : monthlyBreakFold w acc bk =
          (acc.1 + ((e.timestamp - bk.startTime.timestamp : Int) : ℚ) / (1000 * 60),
           match lookupWeek acc.2 w with
           | some _ => assocModify w
               (fun a => { a with breaks :=
                 a.breaks + ((e.timestamp - bk.startTime.timestamp : Int) : ℚ) / (1000 * 60) })
               acc.2
           | none => acc.2) := by
        simp only [monthlyBreakFold, he]
      rw [hstep]
      cases hlook : lookupWeek acc.2 w with
      | none =>
        simp only [hlook]
        obtain ⟨i1, i2, i3, i4⟩ := ih (acc.1 + ((e.timestamp - bk.startTime.timestamp : Int) : ℚ) / (1000 * 60), acc.2)
        refine ⟨?_, fun _ => i2 hlook, fun w' hw' => i3 w' hw', fun a ha => ?_⟩
        · rw [i1]
          simp [List.filter_cons, he, computeBreakDuration]
          ring
        · exact absurd ha (by simp)
      | some a0 =>
        simp only [hlook]
        set durB : ℚ := ((e.timestamp - bk.startTime.timestamp : Int) : ℚ) / (1000 * 60) with hdurB
        set ws1 := assocModify w (fun a => { a with breaks := a.breaks + durB }) acc.2 with hws1
        obtain ⟨i1, i2, i3, i4⟩ := ih (acc.1 + durB, ws1)
        have hlook1 : lookupWeek ws1 w = some { a0 with breaks := a0.breaks + durB } :=
          lookupWeek_assocModify_self w _ acc.2 a0 hlook
        refine ⟨?_, fun hn => ?_, fun w' hw' => ?_, fun a ha => ?_⟩
        · rw [i1]
          simp [List.filter_cons, he, computeBreakDuration, hdurB]
          ring
        · exact absurd hn (by simp)
        · rw [i3 w' hw', hws1, lookupWeek_assocModify_ne w w' _ acc.2 hw']
        · simp only [Option.some.injEq] at ha
          rw [i4 _ hlook1, ← ha]
          simp only [Option.some.injEq, List.filter_cons, he]
          simp [computeBreakDuration, MonthWeekAcc.mk.injEq, hdurB, he]
          ring

theorem monthlyAccum_fst (acc : ℚ × ℚ × List (Int × MonthWeekAcc)) (x : Shift)
    (e : TimestampLocation) (he : x.endTime = some e) :
    (monthlyAccum acc x).1 =
      acc.1 + ((e.timestamp - x.startTime.timestamp : Int) : ℚ) / (1000 * 60 * 60) := by
  simp only [monthlyAccum, he]

theorem monthlyAccum_snd (acc : ℚ × ℚ × List (Int × MonthWeekAcc)) (x : Shift)
    (e : TimestampLocation) (he : x.endTime = some e) :
    (monthlyAccum acc x).2 =
      x.breaks.foldl (monthlyBreakFold (getWeekNumber x.date))
        (acc.2.1,
         assocModify (getWeekNumber x.date)
           (fun a => { a with
             hours := a.hours + ((e.timestamp - x.startTime.timestamp : Int) : ℚ) / (1000 * 60 * 60)
             shifts := a.shifts + 1 })
           (match lookupWeek acc.2.2 (getWeekNumber x.date) with
            | some _ => acc.2.2
            | none => acc.2.2 ++
                [(getWeekNumber x.date, { hours := 0, breaks := 0, shifts := 0 })])) := by
  simp only [monthlyAccum, he]

theorem monthlyAccum_invariant (l : List Shift) :
    (∀ s ∈ l, s.endTime.isSome = true) →
      (l.foldl monthlyAccum (0, 0, [])).1 = (l.map rawShiftHours).sum ∧
        (l.foldl monthlyAccum (0, 0, [])).2.1 = (l.map computeTotalBreakDuration).sum ∧
        ∀ w : Int, lookupWeek (l.foldl monthlyAccum (0, 0, [])).2.2 w =
          (if shiftsInWeek l w = [] then none
           else some { hours := ((shiftsInWeek l w).map rawShiftHours).sum
                       breaks := ((shiftsInWeek l w).map computeTotalBreakDuration).sum
                       shifts := (shiftsInWeek l w).length }) := by
  induction l using List.reverseRecOn with
  | nil =>
    intro _
    refine ⟨rfl, rfl, fun w => ?_⟩
    simp [shiftsInWeek, lookupWeek_nil]
  | append_singleton l x ih =>
    intro hend
    have hl : ∀ s ∈ l, s.endTime.isSome = true := fun s hs => hend s (by simp [hs])
    obtain ⟨ih1, ih2, ih3⟩ := ih hl
    have hx : x.endTime.isSome = true := hend x (by simp)
    obtain ⟨e, he⟩ := Option.isSome_iff_exists.mp hx
    rw [List.foldl_append, List.foldl_cons, List.foldl_nil]
    have hraw : rawShiftHours x =
        ((e.timestamp - x.startTime.timestamp : Int) : ℚ) / (1000 * 60 * 60) := by
      unfold rawShiftHours; rw [he]
    have hctbd : ((x.breaks.filter fun bk => bk.endTime.isSome).map computeBreakDuration).sum =
        computeTotalBreakDuration x := rfl
    refine ⟨?_, ?_, ?_⟩
    · rw [monthlyAccum_fst _ x e he, List.map_append, List.sum_append, ih1]
      simp [hraw]
    · rw [monthlyAccum_snd _ x e he,
        (monthlyBreakFold_foldl (getWeekNumber x.date) x.breaks _).1, hctbd,
        List.map_append, List.sum_append, ih2]
      simp
    · intro w
      rw [monthlyAccum_snd _ x e he]
      by_cases hw : getWeekNumber x.date = w
      · -- the shift's own week bucket
        subst hw
        have hshifts : shiftsInWeek (l ++ [x]) (getWeekNumber x.date) =
            shiftsInWeek l (getWeekNumber x.date) ++ [x] := by
          unfold shiftsInWeek
          rw [List.filter_append]
          simp
        cases hlook : lookupWeek (l.foldl monthlyAccum (0, 0, [])).2.2 (getWeekNumber x.date) with
        | none =>
          have hemp : shiftsInWeek l (getWeekNumber x.date) = [] := by
            by_contra hne
            rw [ih3 (getWeekNumber x.date), if_neg hne] at hlook
            exact Option.noConfusion hlook
          simp only [hlook]
          have hlook0 : lookupWeek ((l.foldl monthlyAccum (0, 0, [])).2.2 ++
              [(getWeekNumber x.date, ({ hours := 0, breaks := 0, shifts := 0 } : MonthWeekAcc))])
              (getWeekNumber x.date) =
              some { hours := 0, breaks := 0, shifts := 0 } := by
            rw [lookupWeek_append_single, hlook]
            simp
          have hlook1 := lookupWeek_assocModify_self (getWeekNumber x.date)
            (fun a => { a with
              hours := a.hours + ((e.timestamp - x.startTime.timestamp : Int) : ℚ) / (1000 * 60 * 60)
              shifts := a.shifts + 1 }) _ _ hlook0
          rw [(monthlyBreakFold_foldl (getWeekNumber x.date) x.breaks _).2.2.2 _ hlook1, hctbd]
          rw [hshifts, hemp, if_neg (by simp), List.nil_append]
          rw [Option.some.injEq, MonthWeekAcc.mk.injEq]
          refine ⟨?_, ?_, ?_⟩
          · simp [hraw]
          · simp
          · simp
        | some A =>
          have hemp : ¬shiftsInWeek l (getWeekNumber x.date) = [] := by
            intro hne
            rw [ih3 (getWeekNumber x.date), if_pos hne] at hlook
            exact Option.noConfusion hlook
          have hA : A = { hours := ((shiftsInWeek l (getWeekNumber x.date)).map rawShiftHours).sum
                          breaks := ((shiftsInWeek l (getWeekNumber x.date)).map
                            computeTotalBreakDuration).sum
                          shifts := (shiftsInWeek l (getWeekNumber x.date)).length } := by
            have := ih3 (getWeekNumber x.date)
            rw [hlook, if_neg hemp] at this
            exact Option.some.injEq _ _ ▸ this
          simp only [hlook]
          have hlook1 := lookupWeek_assocModify_self (getWeekNumber x.date)
            (fun a => { a with
              hours := a.hours + ((e.timestamp - x.startTime.timestamp : Int) : ℚ) / (1000 * 60 * 60)
              shifts := a.shifts + 1 }) _ _ hlook
          rw [(monthlyBreakFold_foldl (getWeekNumber x.date) x.breaks _).2.2.2 _ hlook1, hctbd]
          rw [hshifts, if_neg (by simp), hA]
          rw [Option.some.injEq, MonthWeekAcc.mk.injEq]
          refine ⟨?_, ?_, ?_⟩
          · simp [List.map_append, List.sum_append, hraw]
          · simp [List.map_append, List.sum_append]
          · simp [List.length_append]
      · -- any other week is untouched
        have hshifts : shiftsInWeek (l ++ [x]) w = shiftsInWeek l w := by
          unfold shiftsInWeek
          rw [List.filter_append]
          simp [hw]
        have hne : w ≠ getWeekNumber x.date := fun hc => hw hc.symm
        rw [(monthlyBreakFold_foldl (getWeekNumber x.date) x.breaks _).2.2.1 w hne,
          lookupWeek_assocModify_ne _ _ _ _ hne]
        have hbase : lookupWeek
            (match lookupWeek (l.foldl monthlyAccum (0, 0, [])).2.2 (getWeekNumber x.date) with
             | some _ => (l.foldl monthlyAccum (0, 0, [])).2.2
             | none => (l.foldl monthlyAccum (0, 0, [])).2.2 ++
                 [(getWeekNumber x.date, { hours := 0, breaks := 0, shifts := 0 })]) w =
            lookupWeek (l.foldl monthlyAccum (0, 0, [])).2.2 w := by
          cases hlook : lookupWeek (l.foldl monthlyAccum (0, 0, [])).2.2 (getWeekNumber x.date) with
          | none =>
            simp only [hlook]
            rw [lookupWeek_append_single]
            cases hc : lookupWeek (l.foldl monthlyAccum (0, 0, [])).2.2 w with
            | none => simp [hne.symm]
            | some v => simp
          | some A => simp only [hlook]
        rw [hbase, hshifts, ih3 w]

theorem find?_format_eq_lookup (ws : List (Int × MonthWeekAcc)) (w : Int) :
    ((ws.map fun p => ({ weekNumber := p.1,
                         totalHours := round2 p.2.hours,
                         totalBreakMinutes := jsRound p.2.breaks,
                         shiftsCount := p.2.shifts } :
          MonthWeekStat)).find? fun en => decide (en.weekNumber = w)) =
      Option.map (fun a => ({ weekNumber := w,
                              totalHours := round2 a.hours,
                              totalBreakMinutes := jsRound a.breaks,
                              shiftsCount := a.shifts } : MonthWeekStat))
        (lookupWeek ws w) := by
  induction ws with
  | nil => rfl
  | cons p rest ih =>
    obtain ⟨x, b⟩ := p
    rw [lookupWeek_cons]
    by_cases hx : x = w
    · subst hx
      rw [List.map_cons, List.find?_cons_of_pos _ (by simp), if_pos rfl]
      rfl
    · rw [List.map_cons, List.find?_cons_of_neg _ (by simp [hx]), if_neg hx, ih]

theorem weekStart_is_sunday (refDate : Int) :
    getDayOfWeek (dayOf (weeklyWindowLo refDate)) = 0 := by
  unfold weeklyWindowLo dayOf getDayOfWeek msPerDay
  rw [Int.mul_fdiv_cancel _ (by norm_num)]
  generalize refDate.fdiv 86400000 = d
  have h0 : (0 : Int) ≤ (d + 4) % 7 := Int.emod_nonneg _ (by norm_num)
  rw [Int.toNat_of_nonneg h0]
  omega

theorem sortByDate_length (l : List Shift) : (sortByDate l).length = l.length :=
  (sortByDate_perm l).length_eq

theorem sortByDate_sum_map (f : Shift → ℚ) (l : List Shift) :
    ((sortByDate l).map f).sum = (l.map f).sum :=
  ((sortByDate_perm l).map f).sum_eq

/-- Claim C5 amended: every statistics window reports, over exactly the
Completed shifts whose `date` falls in the window, the rounded sum of the
raw elapsed shift time (`endTime − startTime`, with no break subtraction —
not `computeWorkDuration`) together with the rounded sum of
`computeTotalBreakDuration`; the weekly window is the Sunday-start week of
the reference date, and the monthly handler additionally groups the
completed shifts by week-of-year (`getWeekNumber`) for its sub-totals. -/
theorem stats_windows_and_sums (db : List Shift) (uid : Nat) (refDate : Int)
    (hend : ∀ s ∈ db, s.shiftStatus = .completed → s.endTime.isSome = true) :
    ((getDailyStats db uid refDate).totalShifts = (dailyFetch db uid refDate).length ∧
      (getDailyStats db uid refDate).totalHours =
        round2 (((dailyFetch db uid refDate).map rawShiftHours).sum) ∧
      (getDailyStats db uid refDate).totalBreakMinutes =
        jsRound (((dailyFetch db uid refDate).map computeTotalBreakDuration).sum) ∧
      ∀ s : Shift, s ∈ (getDailyStats db uid refDate).shifts ↔
        s ∈ db ∧ completedInWindow uid (dailyWindowLo refDate) (dailyWindowHi refDate) s = true) ∧
    ((getWeeklyStats db uid refDate).weekStart = weeklyWindowLo refDate ∧
      getDayOfWeek (dayOf (getWeeklyStats db uid refDate).weekStart) = 0 ∧
      (getWeeklyStats db uid refDate).weekEnd = weeklyWindowHi refDate ∧
      (getWeeklyStats db uid refDate).weekEnd =
        (getWeeklyStats db uid refDate).weekStart + 7 * msPerDay - 1 ∧
      (getWeeklyStats db uid refDate).totalShifts = (weeklyFetch db uid refDate).length ∧
      (getWeeklyStats db uid refDate).totalHours =
        round2 (((weeklyFetch db uid refDate).map rawShiftHours).sum) ∧
      (getWeeklyStats db uid refDate).totalBreakMinutes =
        jsRound (((weeklyFetch db uid refDate).map computeTotalBreakDuration).sum)) ∧
    ((getMonthlyStats db uid refDate).totalShifts = (monthlyFetch db uid refDate).length ∧
      (getMonthlyStats db uid refDate).totalHours =
        round2 (((monthlyFetch db uid refDate).map rawShiftHours).sum) ∧
      (getMonthlyStats db uid refDate).totalBreakMinutes =
        jsRound (((monthlyFetch db uid refDate).map computeTotalBreakDuration).sum) ∧
      ∀ w : Int,
        ((getMonthlyStats db uid refDate).weeklyStats.find? fun en =>
            decide (en.weekNumber = w)) =
          (if shiftsInWeek (monthlyFetch db uid refDate) w = [] then none
           else some { weekNumber := w,
                       totalHours := round2
                         (((shiftsInWeek (monthlyFetch db uid refDate) w).map
                           rawShiftHours).sum),
                       totalBreakMinutes := jsRound
                         (((shiftsInWeek (monthlyFetch db uid refDate) w).map
                           computeTotalBreakDuration).sum),
                       shiftsCount :=
                         (shiftsInWeek (monthlyFetch db uid refDate) w).length })) := by
  have hendS : ∀ s ∈ sortByDate (monthlyFetch db uid refDate), s.endTime.isSome = true := by
    intro s hs
    have hs' : s ∈ monthlyFetch db uid refDate := ((sortByDate_perm _).mem_iff).mp hs
    have hm := List.mem_filter.mp hs'
    have hq := hm.2
    unfold completedInWindow at hq
    simp only [Bool.and_eq_true, decide_eq_true_eq] at hq
    exact hend s hm.1 hq.2
  obtain ⟨m1, m2, m3⟩ := monthlyAccum_invariant (sortByDate (monthlyFetch db uid refDate)) hendS
  refine ⟨⟨rfl, ?_, ?_, ?_⟩, ⟨rfl, weekStart_is_sunday refDate, rfl, ?_, ?_, ?_, ?_⟩,
    ⟨?_, ?_, ?_, ?_⟩⟩
  · show round2 ((List.foldl dailyAccum (0, 0) (dailyFetch db uid refDate)).1) = _
    rw [dailyAccum_foldl]
    norm_num
  · show jsRound ((List.foldl dailyAccum (0, 0) (dailyFetch db uid refDate)).2) = _
    rw [dailyAccum_foldl]
    norm_num
  · intro s
    show s ∈ dailyFetch db uid refDate ↔ _
    exact List.mem_filter
  · show (dayOf refDate - (getDayOfWeek (dayOf refDate) : Int) + 7) * msPerDay - 1 =
      (dayOf refDate - (getDayOfWeek (dayOf refDate) : Int)) * msPerDay + 7 * msPerDay - 1
    ring
  · show (sortByDate (weeklyFetch db uid refDate)).length = _
    exact sortByDate_length _
  · show round2 ((List.foldl weeklyAccum
        (initWeekDays (dayOf refDate - (getDayOfWeek (dayOf refDate) : Int)), 0, 0)
        (sortByDate (weeklyFetch db uid refDate))).2.1) = _
    rw [(weeklyAccum_totals (sortByDate (weeklyFetch db uid refDate)) _).1, sortByDate_sum_map]
    norm_num
  · show jsRound ((List.foldl weeklyAccum
        (initWeekDays (dayOf refDate - (getDayOfWeek (dayOf refDate) : Int)), 0, 0)
        (sortByDate (weeklyFetch db uid refDate))).2.2) = _
    rw [(weeklyAccum_totals (sortByDate (weeklyFetch db uid refDate)) _).2, sortByDate_sum_map]
    norm_num
  · show (sortByDate (monthlyFetch db uid refDate)).length = _
    exact sortByDate_length _
  · show round2 ((List.foldl monthlyAccum (0, 0, [])
        (sortByDate (monthlyFetch db uid refDate))).1) = _
    rw [m1, sortByDate_sum_map]
  · show jsRound ((List.foldl monthlyAccum (0, 0, [])
        (sortByDate (monthlyFetch db uid refDate))).2.1) = _
    rw [m2, sortByDate_sum_map]
  · intro w
    show (((List.foldl monthlyAccum (0, 0, [])
        (sortByDate (monthlyFetch db uid refDate))).2.2.map fun p =>
          ({ weekNumber := p.1,
             totalHours := round2 p.2.hours,
             totalBreakMinutes := jsRound p.2.breaks,
             shiftsCount := p.2.shifts } : MonthWeekStat)).find? fun en =>
        decide (en.weekNumber = w)) = _
    rw [find?_format_eq_lookup, m3 w]
    have hp : (shiftsInWeek (sortByDate (monthlyFetch db uid refDate)) w).Perm
        (shiftsInWeek (monthlyFetch db uid refDate) w) :=
      (sortByDate_perm (monthlyFetch db uid refDate)).filter _
    by_cases hemp : shiftsInWeek (sortByDate (monthlyFetch db uid refDate)) w = []
    · have hemp2 : shiftsInWeek (monthlyFetch db uid refDate) w = [] := by
        have hle := hp.length_eq
        rw [hemp] at hle
        exact List.length_eq_zero.mp hle.symm
      rw [if_pos hemp, if_pos hemp2]
      rfl
    · have hemp2 : ¬shiftsInWeek (monthlyFetch db uid refDate) w = [] := by
        intro hc
        have hle := hp.length_eq
        rw [hc] at hle
        exact hemp (List.length_eq_zero.mp hle)
      rw [if_neg hemp, if_neg hemp2]
      simp only [Option.map_some']
      rw [Option.some.injEq, MonthWeekStat.mk.injEq]
      refine ⟨rfl, ?_, ?_, ?_⟩
      · rw [(hp.map rawShiftHours).sum_eq]
      · rw [(hp.map computeTotalBreakDuration).sum_eq]
      · rw [hp.length_eq]

/-- Claim C5 counterexample: on `c5Db` (one completed two-hour shift with a
closed one-hour break) the daily statistics report `totalHours = 2` — the
raw elapsed time — while summing the spec's `computeWorkDuration` (elapsed
minus break time) over the same fetched window gives 1 hour; the reported
total is not obtained by summing `computeWorkDuration`. -/
theorem stats_not_work_duration_counterexample :
    (getDailyStats c5Db 1 0).totalHours = 2 ∧
      round2 (((dailyFetch c5Db 1 0).map computeWorkDuration).sum / 60) = 1 ∧
      (getDailyStats c5Db 1 0).totalHours ≠
        round2 (((dailyFetch c5Db 1 0).map computeWorkDuration).sum / 60) := by
  have hw0 : dayStartMs 0 = 0 := rfl
  have hfetch : dailyFetch c5Db 1 0 = c5Db := by decide
  have h1 : (getDailyStats c5Db 1 0).totalHours = 2 := by
    norm_num [getDailyStats, hw0, c5Db, dailyAccum, statsBreakFold, completedInWindow,
      round2, jsRound, msPerDay, spotLoc, List.filter]
  have h2 : round2 (((dailyFetch c5Db 1 0).map computeWorkDuration).sum / 60) = 1 := by
    rw [hfetch]
    norm_num [c5Db, computeWorkDuration, computeTotalBreakDuration, computeBreakDuration,
      round2, jsRound, spotLoc, List.filter]
  exact ⟨h1, h2, by rw [h1, h2]; norm_num⟩

/-- Claim C5 amended witness: on `c5Db` the daily and monthly reported work
totals equal the rounded sums of the raw elapsed hours over the fetched
completed shifts. -/
theorem stats_windows_and_sums_witness :
    (getDailyStats c5Db 1 0).totalHours =
        round2 (((dailyFetch c5Db 1 0).map rawShiftHours).sum) ∧
      (getMonthlyStats c5Db 1 0).totalHours =
        round2 (((monthlyFetch c5Db 1 0).map rawShiftHours).sum) :=
  ⟨(stats_windows_and_sums c5Db 1 0 (by decide)).1.2.1,
   (stats_windows_and_sums c5Db 1 0 (by decide)).2.2.2.1⟩

end StaffShift
